import Mathlib

/-!
# ESP8266 AT driver and MQTT push-message parser

A shallow embedding of `src/esp8266/esp8266.c` and `src/mqtt/mqtt.c`.

* A byte is a `Nat` (stores into `uint8_t`/`uint16_t`/`uint32_t` objects reduce it explicitly).
* A `char *` argument is the list of bytes of the memory it points to; the C string it
  denotes is the part before the first NUL (`cstr`), the end of the list counting as a NUL.
* A pointer into a string is an offset into that list.
* The HAL (`HAL_GetTick`, `HAL_UART_Transmit`, `HAL_UART_Receive`) is an explicit environment.
-/

namespace Esp01

/-! ## The C library functions the sources call -/

/-- Byte values of an ASCII string literal. -/
def bytes (s : String) : List Nat := s.toList.map Char.toNat

/-- The C string held by a memory region: its bytes before the first NUL. -/
def cstr (mem : List Nat) : List Nat := mem.takeWhile (fun b => b != 0)

/-- C `strlen`. -/
def strlen (mem : List Nat) : Nat := (cstr mem).length

/-- Offset of the first occurrence of `needle` in `hay` (both plain byte sequences). -/
def findSub (needle : List Nat) : List Nat → Option Nat
  | [] => if needle.isPrefixOf [] then some 0 else none
  | b :: t => if needle.isPrefixOf (b :: t) then some 0 else (findSub needle t).map (· + 1)

/-- C `strstr`: offset of the first occurrence of the string `needle` in the string
`haystack`, `none` for a NULL result. -/
def strstr (haystack needle : List Nat) : Option Nat := findSub (cstr needle) (cstr haystack)

/-- C `strchr`: offset of the first byte equal to `c` in the string `s` (the terminating NUL
is part of the string), `none` for a NULL result. -/
def strchr : List Nat → Nat → Option Nat
  | [], c => if c = 0 then some 0 else none
  | b :: t, c =>
    if b = c then some 0
    else if b = 0 then none
    else (strchr t c).map (· + 1)

/-- C `strncmp(a, b, n) == 0`. -/
def strncmpEq : List Nat → List Nat → Nat → Bool
  | _, _, 0 => true
  | a, b, n + 1 =>
    if a.headD 0 != b.headD 0 then false
    else if a.headD 0 = 0 then true
    else strncmpEq a.tail b.tail n

/-- C `isspace` in the "C" locale. -/
def isspace (c : Nat) : Bool := c = 32 || (9 ≤ c && c ≤ 13)

/-- C `isdigit`. -/
def isdigit (c : Nat) : Bool := 48 ≤ c && c ≤ 57

/-- The digit loop of `atoi`. -/
def atoiDigits (acc : Nat) : List Nat → Nat
  | [] => acc
  | c :: t => if isdigit c then atoiDigits (acc * 10 + (c - 48)) t else acc

/-- C `atoi`: leading white space, an optional sign, then decimal digits. The model returns
the mathematical value of the digits; C defines the result only when it fits in `int`
(32 bits here), so the model stands for the library function on texts whose value lies in
that range, and the statements that read a number through it are made there. -/
def atoi : List Nat → Int
  | [] => 0
  | c :: t =>
    if isspace c then atoi t
    else if c = 45 then - (atoiDigits 0 t : Int)
    else if c = 43 then (atoiDigits 0 t : Int)
    else (atoiDigits 0 (c :: t) : Int)

/-- C `strncpy(dest, src, n)`: the first `n` bytes of `dest` become the string `src`, cut at
`n` bytes or padded with NULs up to `n`. -/
def strncpy (dest src : List Nat) (n : Nat) : List Nat :=
  (cstr src).take n ++ List.replicate (n - ((cstr src).take n).length) 0 ++ dest.drop n

/-- C `strcpy(dest, src)`: the string `src` and its terminating NUL overwrite the start of
`dest`. -/
def strcpy (dest src : List Nat) : List Nat :=
  cstr src ++ 0 :: dest.drop ((cstr src).length + 1)

/-! ## `esp8266.h` -/

/-- Status codes (`esp8266_status_t`). -/
inductive esp8266_status_t
  | ESP8266_OK
  | ESP8266_ERROR_COMMAND
  | ESP8266_ERROR_TIMEOUT
  | ESP8266_ERROR_NO_RESPONSE
  | ESP8266_ERROR_UART
  | ESP8266_ERROR_INVALID_PARAM
  | ESP8266_ERROR_BUFFER_OVERFLOW
  | ESP8266_ERROR_WIFI_WRONG_PASSWORD
  | ESP8266_ERROR_WIFI_NOT_FOUND
  | ESP8266_ERROR_WIFI_CONN_FAIL
  | ESP8266_ERROR_WIFI_ALREADY_CONNECTED
  deriving DecidableEq, Repr

open esp8266_status_t

/-- The struct `esp8266_response_t`: `data` is a `char[256]`, `data_length` a `uint16_t`. -/
structure esp8266_response_t where
  status : esp8266_status_t
  data : List Nat
  data_length : Nat
  deriving DecidableEq, Repr

/-! ## `esp8266.c`: the response classifier -/

/-- `ESP8266_ParseResponse(response, command_type)`; `none` is the NULL pointer. -/
def ESP8266_ParseResponse (response : Option (List Nat)) (_command_type : Option (List Nat)) :
    esp8266_status_t :=
  match response with
  | none => ESP8266_ERROR_NO_RESPONSE
  | some r =>
    if (strstr r (bytes "OK")).isSome then ESP8266_OK
    else if (strstr r (bytes "ERROR")).isSome then ESP8266_ERROR_COMMAND
    else if (strstr r (bytes "FAIL")).isSome then ESP8266_ERROR_COMMAND
    else if (strstr r (bytes "+CWJAP:1")).isSome then ESP8266_ERROR_TIMEOUT
    else if (strstr r (bytes "+CWJAP:2")).isSome then ESP8266_ERROR_WIFI_WRONG_PASSWORD
    else if (strstr r (bytes "+CWJAP:3")).isSome then ESP8266_ERROR_WIFI_NOT_FOUND
    else if (strstr r (bytes "+CWJAP:4")).isSome then ESP8266_ERROR_WIFI_CONN_FAIL
    else ESP8266_ERROR_TIMEOUT

/-! ## `esp8266.c`: the transport framer -/

/-- The HAL as one exchange sees it.  `transmitOk` tells whether `HAL_UART_Transmit` returns
`HAL_OK`; `tick k` is the value returned by the `k`-th call of `HAL_GetTick` (call 0 reads
`start_time`); `receive k` is the outcome of the `k`-th call of `HAL_UART_Receive`:
`some b` when it returns `HAL_OK` having stored the byte `b`, `none` otherwise. -/
structure Hal where
  transmitOk : Bool
  tick : Nat → Nat
  receive : Nat → Option Nat

/-- The macro `ESP8266_RX_BUFFER_SIZE`. -/
def ESP8266_RX_BUFFER_SIZE : Nat := 512

/-- `ESP8266_ClearBuffer`: `memset(rx_buffer, 0, sizeof(rx_buffer))`. -/
def ESP8266_ClearBuffer (_rx_buffer : List Nat) : List Nat :=
  List.replicate ESP8266_RX_BUFFER_SIZE 0

/-- An array store `a[i] = v`; `none` when `i` is outside the array. -/
def store (a : List Nat) (i v : Nat) : Option (List Nat) :=
  if i < a.length then some (a.set i v) else none

/-- Unsigned 32-bit subtraction. -/
def u32sub (a b : Nat) : Nat := (a % 4294967296 + 4294967296 - b % 4294967296) % 4294967296

/-- The completion test of the receive loop: `rx_buffer` holds one of the three
terminators. -/
def frameComplete (rx_buffer : List Nat) : Bool :=
  (strstr rx_buffer (bytes "\r\nOK\r\n")).isSome ||
  (strstr rx_buffer (bytes "\r\nERROR\r\n")).isSome ||
  (strstr rx_buffer (bytes "\r\nFAIL\r\n")).isSome

/-- The variables of the receive loop, with the number of HAL calls made so far. -/
structure LoopState where
  rx_buffer : List Nat
  rx_index : Nat
  ticks : Nat
  reads : Nat
  deriving DecidableEq, Repr

/-- How the receive loop is left: the `while` condition fails, the `break`, the
`return` of the overflow branch, or a store outside `rx_buffer`. -/
inductive LoopExit
  | deadline
  | terminator
  | overflow
  | outOfBounds
  deriving DecidableEq, Repr

/-- Result of one evaluation of the loop condition and body. -/
inductive LoopStep
  | next (st : LoopState)
  | exit (why : LoopExit) (st : LoopState)
  deriving DecidableEq, Repr

/-- One iteration of `while ((HAL_GetTick() - start_time) < timeout_ms) ...`. -/
def loopStep (hal : Hal) (start_time timeout_ms : Nat) (st : LoopState) : LoopStep :=
  let now := hal.tick st.ticks
  let st1 : LoopState := { st with ticks := st.ticks + 1 }
  if u32sub now start_time < timeout_ms then
    let st2 : LoopState := { st1 with reads := st1.reads + 1 }
    match hal.receive st.reads with
    | none => LoopStep.next st2
    | some received_char =>
      if st.rx_index < ESP8266_RX_BUFFER_SIZE - 1 then
        match store st.rx_buffer st.rx_index (received_char % 256) with
        | none => LoopStep.exit LoopExit.outOfBounds st2
        | some buf1 =>
          let rx_index := (st.rx_index + 1) % 65536
          match store buf1 rx_index 0 with
          | none => LoopStep.exit LoopExit.outOfBounds { st2 with rx_buffer := buf1 }
          | some buf2 =>
            let st3 : LoopState := { st2 with rx_buffer := buf2, rx_index := rx_index }
            if frameComplete buf2 then LoopStep.exit LoopExit.terminator st3
            else LoopStep.next st3
      else LoopStep.exit LoopExit.overflow st2
  else LoopStep.exit LoopExit.deadline st1

/-- The receive loop after at most `k` evaluations of its condition, from `init`. -/
def loopIter (hal : Hal) (start_time timeout_ms : Nat) (init : LoopState) : Nat → LoopStep
  | 0 => LoopStep.next init
  | k + 1 =>
    match loopIter hal start_time timeout_ms init k with
    | LoopStep.next st => loopStep hal start_time timeout_ms st
    | LoopStep.exit why st => LoopStep.exit why st

/-- Why a run of the model gives no result. -/
inductive Stuck
  | outOfFuel
  | outOfBounds
  deriving DecidableEq, Repr

/-- What a call of `ESP8266_SendAndWaitResponse` or `ESP8266_Send` leaves behind: the returned
struct, the global `rx_buffer`, and the number of HAL calls it made. -/
structure CallResult where
  response : esp8266_response_t
  rx_buffer : List Nat
  transmits : Nat
  ticks : Nat
  reads : Nat
  deriving DecidableEq, Repr

/-- The initializer `esp8266_response_t response = {0}`. -/
def response0 : esp8266_response_t :=
  { status := ESP8266_OK, data := List.replicate 256 0, data_length := 0 }

/-- `ESP8266_SendAndWaitResponse(command, timeout_ms)`; `rx_buffer` is the global buffer
before the call, `none` a NULL command, and `fuel` bounds the number of evaluations of the
loop condition. -/
def ESP8266_SendAndWaitResponse (hal : Hal) (rx_buffer : List Nat)
    (command : Option (List Nat)) (timeout_ms : Nat) (fuel : Nat) : Except Stuck CallResult :=
  let response := response0
  match command with
  | none =>
    Except.ok { response := { response with status := ESP8266_ERROR_INVALID_PARAM },
                rx_buffer := rx_buffer, transmits := 0, ticks := 0, reads := 0 }
  | some cmd =>
    let rx_buffer := ESP8266_ClearBuffer rx_buffer
    if hal.transmitOk then
      let start_time := hal.tick 0
      let init : LoopState := { rx_buffer := rx_buffer, rx_index := 0, ticks := 1, reads := 0 }
      match loopIter hal start_time timeout_ms init fuel with
      | LoopStep.next _ => Except.error Stuck.outOfFuel
      | LoopStep.exit LoopExit.outOfBounds _ => Except.error Stuck.outOfBounds
      | LoopStep.exit LoopExit.overflow st =>
        Except.ok { response := { response with status := ESP8266_ERROR_BUFFER_OVERFLOW },
                    rx_buffer := st.rx_buffer, transmits := 1, ticks := st.ticks,
                    reads := st.reads }
      | LoopStep.exit _ st =>
        let response := { response with data_length := st.rx_index }
        let response :=
          if st.rx_index < 256 then { response with data := strcpy response.data st.rx_buffer }
          else response
        let response :=
          { response with status := ESP8266_ParseResponse (some st.rx_buffer) (some cmd) }
        Except.ok { response := response, rx_buffer := st.rx_buffer, transmits := 1,
                    ticks := st.ticks, reads := st.reads }
    else
      Except.ok { response := { response with status := ESP8266_ERROR_UART },
                  rx_buffer := rx_buffer, transmits := 1, ticks := 0, reads := 0 }

/-- `ESP8266_Send(command)`: the command is written and no reply is awaited. -/
def ESP8266_Send (hal : Hal) (rx_buffer : List Nat) (command : Option (List Nat)) :
    CallResult :=
  let response := response0
  match command with
  | none =>
    { response := { response with status := ESP8266_ERROR_INVALID_PARAM },
      rx_buffer := rx_buffer, transmits := 0, ticks := 0, reads := 0 }
  | some _ =>
    let rx_buffer := ESP8266_ClearBuffer rx_buffer
    if hal.transmitOk then
      { response := { response with status := ESP8266_OK },
        rx_buffer := rx_buffer, transmits := 1, ticks := 0, reads := 0 }
    else
      { response := { response with status := ESP8266_ERROR_UART },
        rx_buffer := rx_buffer, transmits := 1, ticks := 0, reads := 0 }

/-! ## `esp8266.c`, `mqtt.c`: command wrappers with a fixed command string -/

/-- The struct `esp8266_result_t` (and the identical `mqtt_result_t`): `message` is a
`char[128]`. -/
structure esp8266_result_t where
  status : esp8266_status_t
  message : List Nat
  deriving DecidableEq, Repr

/-- The initializer `esp8266_result_t result = {0}`. -/
def result0 : esp8266_result_t :=
  { status := ESP8266_OK, message := List.replicate 128 0 }

/-- A `char[128]` member initialised with a string literal. -/
def messageInit (s : List Nat) : List Nat := s ++ List.replicate (128 - s.length) 0

/-- `ESP8266_DisconnectWiFi()`. -/
def ESP8266_DisconnectWiFi (hal : Hal) (rx_buffer : List Nat) (fuel : Nat) :
    Except Stuck esp8266_result_t :=
  let result := result0
  match ESP8266_SendAndWaitResponse hal rx_buffer (some (bytes "AT+CWQAP\r\n")) 5000 fuel with
  | Except.error e => Except.error e
  | Except.ok call =>
    let response := call.response
    let result := { result with status := response.status }
    if response.status = ESP8266_OK then
      Except.ok { result with message := strcpy result.message (bytes "WiFi - Disconnected\r\n") }
    else
      Except.ok { result with
        message := strcpy result.message (bytes "WiFi - Failed to disconnect\r\n") }

/-- `ESP8266_SetAutoConnect()`. -/
def ESP8266_SetAutoConnect (hal : Hal) (rx_buffer : List Nat) (fuel : Nat) :
    Except Stuck esp8266_result_t :=
  let result := result0
  let command := bytes "AT+CWAUTOCONN=1\r\n"
  match ESP8266_SendAndWaitResponse hal rx_buffer (some command) 2000 fuel with
  | Except.error e => Except.error e
  | Except.ok call =>
    let response := call.response
    if response.status = ESP8266_OK then
      Except.ok { result with
        message := strcpy result.message (bytes "WiFi - Auto-connect mode enabled\r\n") }
    else
      Except.ok { result with
        message := strcpy result.message
          (bytes "WiFi - Failed to enable auto-connect mode\r\n") }

/-- `MQTT_CleanSession()`. -/
def MQTT_CleanSession (hal : Hal) (rx_buffer : List Nat) (fuel : Nat) :
    Except Stuck esp8266_result_t :=
  match ESP8266_SendAndWaitResponse hal rx_buffer (some (bytes "AT+MQTTCLEAN=0\r\n")) 5000
      fuel with
  | Except.error e => Except.error e
  | Except.ok call =>
    let response := call.response
    if response.status = ESP8266_OK then
      Except.ok { status := response.status,
                  message := messageInit (bytes "MQTT - session cleaned successfully\r\n") }
    else
      Except.ok { status := response.status,
                  message := messageInit (bytes "MQTT - session clean failed\r\n") }

/-! ## `mqtt.h`, `mqtt.c`: the push-message extractor -/

/-- The struct `mqtt_received_message_t`: `link_id` and `valid` are `uint8_t`, `topic` a
`char[64]`, `message_length` a `uint16_t`, `message` a `char[256]`. -/
structure mqtt_received_message_t where
  link_id : Nat
  topic : List Nat
  message_length : Nat
  message : List Nat
  valid : Nat
  deriving DecidableEq, Repr

/-- The initializer `mqtt_received_message_t parsed = {0}`. -/
def parsed0 : mqtt_received_message_t :=
  { link_id := 0, topic := List.replicate 64 0, message_length := 0,
    message := List.replicate 256 0, valid := 0 }

/-- The topic part of `MQTT_ParseReceivedMessage` (mqtt.c lines 177-195), from `parsed.topic`
as initialised: `comma1` and `comma2` are the offsets of the first two commas. -/
def parseTopic (raw_message : List Nat) (comma1 comma2 : Nat) : List Nat :=
  let topic := parsed0.topic
  let topic_start := comma1 + 1
  let topic_end := comma2
  let topic_start :=
    if raw_message.getD topic_start 0 = 34 then topic_start + 1 else topic_start
  let quote_end := (strchr (raw_message.drop topic_start) 34).map (topic_start + ·)
  let topic_end :=
    match quote_end with
    | some q => if q < topic_end then q else topic_end
    | none => topic_end
  let topic_len : Int := (topic_end : Int) - (topic_start : Int)
  if 0 < topic_len ∧ topic_len < 64 then
    (strncpy topic (raw_message.drop topic_start) topic_len.toNat).set topic_len.toNat 0
  else topic

/-- The message part of `MQTT_ParseReceivedMessage` (mqtt.c lines 200-210), from
`parsed.message` as initialised: `message_start` is the memory behind the third comma. -/
def parseMessage (message_start : List Nat) : List Nat :=
  let message := strncpy parsed0.message message_start (256 - 1)
  let message := message.set (256 - 1) 0
  let msg_len : Int := (strlen message : Int)
  let message :=
    if 0 < msg_len ∧ message.getD (msg_len - 1).toNat 0 = 10 then
      message.set (msg_len - 1).toNat 0
    else message
  let message :=
    if 1 < msg_len ∧ message.getD (msg_len - 2).toNat 0 = 13 then
      message.set (msg_len - 2).toNat 0
    else message
  message

/-- `MQTT_ParseReceivedMessage(raw_message)`.  Pointers into `raw_message` are offsets. -/
def MQTT_ParseReceivedMessage (raw_message : List Nat) : mqtt_received_message_t :=
  let parsed := parsed0
  let mqtt_start : Option Nat :=
    if strncmpEq raw_message (bytes "+MQTTSUBRECV:") 13 then some 0
    else strstr raw_message (bytes "+MQTTSUBRECV:")
  match mqtt_start with
  | none => { parsed with valid := 0 }
  | some _ =>
    let msg_start := 13
    match strchr (raw_message.drop msg_start) 44 with
    | none => { parsed with valid := 0 }
    | some i1 =>
      let comma1 := msg_start + i1
      match strchr (raw_message.drop (comma1 + 1)) 44 with
      | none => { parsed with valid := 0 }
      | some i2 =>
        let comma2 := comma1 + 1 + i2
        match strchr (raw_message.drop (comma2 + 1)) 44 with
        | none => { parsed with valid := 0 }
        | some i3 =>
          let comma3 := comma2 + 1 + i3
          { link_id := (atoi (raw_message.drop msg_start) % 256).toNat,
            topic := parseTopic raw_message comma1 comma2,
            message_length := (atoi (raw_message.drop (comma2 + 1)) % 65536).toNat,
            message := parseMessage (raw_message.drop (comma3 + 1)),
            valid := 1 }

/-! ## Specification-side vocabulary -/

/-- The byte sequence `r` contains the text `s` as a contiguous substring. -/
def Contains (r : List Nat) (s : String) : Prop := bytes s <:+: r

instance (r : List Nat) (s : String) : Decidable (Contains r s) := by
  unfold Contains; infer_instance

/-- The classifier as the specification words it (section 4.2): first match wins. -/
def classifyReference (r : List Nat) : esp8266_status_t :=
  if Contains r "OK" then ESP8266_OK
  else if Contains r "ERROR" then ESP8266_ERROR_COMMAND
  else if Contains r "FAIL" then ESP8266_ERROR_COMMAND
  else if Contains r "+CWJAP:1" then ESP8266_ERROR_TIMEOUT
  else if Contains r "+CWJAP:2" then ESP8266_ERROR_WIFI_WRONG_PASSWORD
  else if Contains r "+CWJAP:3" then ESP8266_ERROR_WIFI_NOT_FOUND
  else if Contains r "+CWJAP:4" then ESP8266_ERROR_WIFI_CONN_FAIL
  else ESP8266_ERROR_TIMEOUT

/-- A byte sequence without NUL bytes. -/
def NulFree (r : List Nat) : Prop := ∀ b ∈ r, b ≠ 0

instance (r : List Nat) : Decidable (NulFree r) := by
  unfold NulFree; infer_instance

/-- The frame `f` contains one of the three terminators. -/
def HasTerminator (f : List Nat) : Prop :=
  Contains f "\r\nOK\r\n" ∨ Contains f "\r\nERROR\r\n" ∨ Contains f "\r\nFAIL\r\n"

instance (f : List Nat) : Decidable (HasTerminator f) := by
  unfold HasTerminator; infer_instance

/-- The loop variables when `ESP8266_SendAndWaitResponse` enters its receive loop: the
buffer cleared, `rx_index = 0`, `start_time` read (one call of `HAL_GetTick`). -/
def loopInit (rx_buffer : List Nat) : LoopState :=
  { rx_buffer := ESP8266_ClearBuffer rx_buffer, rx_index := 0, ticks := 1, reads := 0 }

/-- The bytes stored in `received_char` by the first `k` calls of `HAL_UART_Receive`. -/
def delivered (hal : Hal) (k : Nat) : List Nat :=
  (List.range k).filterMap (fun j => (hal.receive j).map (· % 256))

/-- The loop variables after `k` iterations that accumulated the frame `d`: the frame
followed by NULs in the buffer, the cursor behind the frame. -/
def frameState (d : List Nat) (k : Nat) : LoopState :=
  { rx_buffer := d ++ List.replicate (ESP8266_RX_BUFFER_SIZE - d.length) 0,
    rx_index := d.length, ticks := k + 1, reads := k }

/-- The buffer invariant of the data model: the buffer has its 512 bytes, the write cursor
is at most capacity minus one, and the byte under the cursor is NUL. -/
def RxInv (st : LoopState) : Prop :=
  st.rx_buffer.length = ESP8266_RX_BUFFER_SIZE ∧
  st.rx_index ≤ ESP8266_RX_BUFFER_SIZE - 1 ∧
  st.rx_buffer[st.rx_index]? = some 0

/-- The invariant claim on one outcome of the loop: the buffer invariant holds, and the loop
was not left by a store outside `rx_buffer`. -/
def StepInv : LoopStep → Prop
  | LoopStep.next st => RxInv st
  | LoopStep.exit why st => why ≠ LoopExit.outOfBounds ∧ RxInv st

/-- Decimal digits of `n` in ASCII, as `printf("%d")` writes a non-negative number; `fuel`
bounds the number of digits. -/
def decimalAux : Nat → Nat → List Nat
  | 0, n => [48 + n % 10]
  | fuel + 1, n => if n < 10 then [48 + n] else decimalAux fuel (n / 10) ++ [48 + n % 10]

/-- Decimal digits of `n` in ASCII, most significant first, without leading zeros. -/
def decimal (n : Nat) : List Nat := decimalAux n n

/-- The push notification `+MQTTSUBRECV:<id>,"<topic>",<len>,<payload>\r\n`. -/
def notification (id : Nat) (topic : List Nat) (len : Nat) (payload : List Nat) : List Nat :=
  bytes "+MQTTSUBRECV:" ++ (decimal id ++ 44 :: 34 :: (topic ++ 34 :: 44 ::
    (decimal len ++ 44 :: (payload ++ [13, 10]))))

/-- The topic text of a record whose second field is `B`: after an optional leading quote,
up to the closing quote or the end of the field. -/
def topicText (B : List Nat) : List Nat :=
  (if B.head? = some 34 then B.tail else B).takeWhile (fun b => b != 34)

/-- The value of a string of decimal digits. -/
def digitsValue (C : List Nat) : Nat := C.foldl (fun acc c => acc * 10 + (c - 48)) 0

/-- A field of a record: no comma and no NUL in it. -/
def IsField (A : List Nat) : Prop := ∀ b ∈ A, b ≠ 44 ∧ b ≠ 0

instance (A : List Nat) : Decidable (IsField A) := by
  unfold IsField; infer_instance

/-- A structurally complete record as the specification describes it (section 4.3): the
buffer is `pre`, then the marker, then the text `A,B,C,D` behind the marker, the marker found
being the one behind `pre`; there is no comma and no NUL in `A`, `B` and `C` (so that the
three commas are the first three behind the marker). -/
def IsRecord (raw_message pre A B C D : List Nat) : Prop :=
  raw_message
    = pre ++ (bytes "+MQTTSUBRECV:" ++ (A ++ 44 :: (B ++ 44 :: (C ++ 44 :: D)))) ∧
  strstr raw_message (bytes "+MQTTSUBRECV:") = some pre.length ∧
  IsField A ∧ IsField B ∧ IsField C

instance (raw_message pre A B C D : List Nat) :
    Decidable (IsRecord raw_message pre A B C D) := by
  unfold IsRecord; infer_instance

/-- The number of reads among the first `k` calls of `HAL_UART_Receive` that deliver no
byte. -/
def idleReads (hal : Hal) (k : Nat) : Nat :=
  ((List.range k).filter (fun j => (hal.receive j).isNone)).length

/-- A transport that accepts the command, whose tick advances by 1 ms at every call of
`HAL_GetTick`, and that delivers the bytes of `s` one per read, then nothing. -/
def halTicking (s : List Nat) : Hal :=
  { transmitOk := true, tick := fun k => k, receive := fun k => s[k]? }

/-- A silent transport whose 32-bit tick is 10 ms before its wraparound when the exchange
starts and advances by 10 ms at every call of `HAL_GetTick`. -/
def halWrap : Hal :=
  { transmitOk := true, tick := fun k => (4294967286 + 10 * k) % 4294967296,
    receive := fun _ => none }

/-- A transport that refuses the command. -/
def halBroken : Hal :=
  { transmitOk := false, tick := fun _ => 0, receive := fun _ => some 65 }

/-- A transport that accepts the command, never advances the tick, and delivers the bytes
of `s` one per read, then nothing. -/
def halOfStream (s : List Nat) : Hal :=
  { transmitOk := true, tick := fun _ => 0, receive := fun k => s[k]? }

/-- A transport that accepts the command, advances the tick by 10 ms at every call of
`HAL_GetTick`, and never delivers a byte. -/
def halSilent : Hal :=
  { transmitOk := true, tick := fun k => 10 * k, receive := fun _ => none }

/-! ## Lemmas on the C library model -/

theorem cstr_of_nulFree {r : List Nat} (h : NulFree r) : cstr r = r := by
  unfold cstr
  rw [List.takeWhile_eq_self_iff]
  intro b hb
  simpa using h b hb

theorem cstr_nulFree (mem : List Nat) : NulFree (cstr mem) := by
  intro b hb
  have := List.mem_takeWhile_imp hb
  simpa using this

theorem cstr_idem (mem : List Nat) : cstr (cstr mem) = cstr mem :=
  cstr_of_nulFree (cstr_nulFree mem)

theorem findSub_isSome_iff (needle hay : List Nat) :
    (findSub needle hay).isSome = true ↔ needle <:+: hay := by
  induction hay with
  | nil =>
    simp only [findSub]
    split <;> rename_i h
    · simp only [List.isPrefixOf_iff_prefix] at h
      simpa using h.isInfix
    · simp only [List.isPrefixOf_iff_prefix] at h
      simp only [Option.isSome_none, Bool.false_eq_true, false_iff]
      intro hi
      exact h (by simpa using hi)
  | cons b t ih =>
    simp only [findSub]
    rw [List.infix_cons_iff]
    split <;> rename_i h
    · simp only [List.isPrefixOf_iff_prefix] at h
      simp [h]
    · simp only [List.isPrefixOf_iff_prefix] at h
      simp [h, ih]

theorem strstr_isSome_iff (hay : List Nat) (s : String) (hs : NulFree (bytes s)) :
    (strstr hay (bytes s)).isSome = true ↔ Contains (cstr hay) s := by
  unfold strstr Contains
  rw [cstr_of_nulFree hs, findSub_isSome_iff]

/-! ## Lemmas on the receive loop and on the parser -/

theorem frameComplete_iff (buf : List Nat) :
    frameComplete buf = true ↔ HasTerminator (cstr buf) := by
  simp only [frameComplete, HasTerminator, Bool.or_eq_true,
    strstr_isSome_iff buf "\r\nOK\r\n" (by decide),
    strstr_isSome_iff buf "\r\nERROR\r\n" (by decide),
    strstr_isSome_iff buf "\r\nFAIL\r\n" (by decide), or_assoc]

theorem cstr_append_zeros {d : List Nat} (h : NulFree d) (m : Nat) :
    cstr (d ++ List.replicate m 0) = d := by
  unfold cstr
  rw [List.takeWhile_append_of_pos (fun a ha => by simpa using h a ha)]
  cases m <;> simp [List.replicate_succ]

theorem set_frame (d : List Nat) (m v : Nat) :
    (d ++ List.replicate (m + 1) 0).set d.length v = d ++ v :: List.replicate m 0 := by
  induction d with
  | nil => simp [List.replicate_succ]
  | cons a t ih => simpa using ih

theorem set_zero_frame (d : List Nat) (m : Nat) :
    (d ++ List.replicate (m + 1) 0).set d.length 0 = d ++ List.replicate (m + 1) 0 := by
  rw [set_frame, List.replicate_succ]

theorem loopIter_exit_stable (hal : Hal) (start timeout : Nat) (init : LoopState)
    {k : Nat} {why : LoopExit} {st : LoopState}
    (h : loopIter hal start timeout init k = LoopStep.exit why st) :
    ∀ m, k ≤ m → loopIter hal start timeout init m = LoopStep.exit why st := by
  intro m hm
  induction m, hm using Nat.le_induction with
  | base => exact h
  | succ m _ ih => simp only [loopIter, ih]

theorem delivered_succ (hal : Hal) (k : Nat) :
    delivered hal (k + 1) = delivered hal k ++
      (match hal.receive k with
       | none => []
       | some b => [b % 256]) := by
  unfold delivered
  rw [List.range_succ, List.filterMap_append]
  cases h : hal.receive k <;> simp [h]

theorem step_idle (hal : Hal) (start timeout : Nat) (d : List Nat) (k : Nat)
    (hdead : u32sub (hal.tick (k + 1)) start < timeout) (hrecv : hal.receive k = none) :
    loopStep hal start timeout (frameState d k) = LoopStep.next (frameState d (k + 1)) := by
  simp [loopStep, frameState, hdead, hrecv]

theorem step_deadline (hal : Hal) (start timeout : Nat) (d : List Nat) (k : Nat)
    (hdead : ¬ u32sub (hal.tick (k + 1)) start < timeout) :
    loopStep hal start timeout (frameState d k)
      = LoopStep.exit LoopExit.deadline { frameState d k with ticks := k + 2 } := by
  simp [loopStep, frameState, hdead]

theorem step_overflow (hal : Hal) (start timeout : Nat) (d : List Nat) (k b : Nat)
    (hdead : u32sub (hal.tick (k + 1)) start < timeout) (hrecv : hal.receive k = some b)
    (hlen : 511 ≤ d.length) :
    loopStep hal start timeout (frameState d k)
      = LoopStep.exit LoopExit.overflow (frameState d (k + 1)) := by
  have : ¬ d.length < 511 := by omega
  simp [loopStep, frameState, hdead, hrecv, ESP8266_RX_BUFFER_SIZE, this]

theorem step_byte (hal : Hal) (start timeout : Nat) (d : List Nat) (k b : Nat)
    (hdead : u32sub (hal.tick (k + 1)) start < timeout) (hrecv : hal.receive k = some b)
    (hlen : d.length < 511) (hnul : NulFree (d ++ [b % 256])) :
    loopStep hal start timeout (frameState d k)
      = if HasTerminator (d ++ [b % 256])
        then LoopStep.exit LoopExit.terminator (frameState (d ++ [b % 256]) (k + 1))
        else LoopStep.next (frameState (d ++ [b % 256]) (k + 1)) := by
  obtain ⟨m, hm⟩ : ∃ m, 512 - d.length = m + 2 := ⟨510 - d.length, by omega⟩
  have hm' : 512 - (d.length + 1) = m + 1 := by omega
  have h1 : d.length < (d ++ List.replicate (m + 2) 0).length := by simp
  have h2 : (d.length + 1) % 65536 = d.length + 1 := by omega
  have h3 : d.length + 1 < (d ++ (b % 256) :: List.replicate (m + 1) 0).length := by simp
  have h4 : (d ++ (b % 256) :: List.replicate (m + 1) 0).set (d.length + 1) 0
      = (d ++ [b % 256]) ++ List.replicate (m + 1) 0 := by
    have := set_zero_frame (d ++ [b % 256]) m
    simp at this
    simp [this]
  have h5 : frameComplete (d ++ (b % 256) :: List.replicate (m + 1) 0) = true
      ↔ HasTerminator (d ++ [b % 256]) := by
    have e : d ++ (b % 256) :: List.replicate (m + 1) 0
        = (d ++ [b % 256]) ++ List.replicate (m + 1) 0 := by simp
    rw [e, frameComplete_iff, cstr_append_zeros hnul]
  simp only [loopStep, frameState, hdead, hrecv, ESP8266_RX_BUFFER_SIZE, hm, store, if_true,
    h1, set_frame, h2, h3, h4, List.length_append, List.length_singleton, hm',
    show d.length < 512 - 1 from by omega]
  by_cases ht : HasTerminator (d ++ [b % 256])
  · simp [ht, h5.mpr ht]
  · have : frameComplete (d ++ (b % 256) :: List.replicate (m + 1) 0) = false := by
      simpa using (not_congr h5).mpr ht
    simp [ht, this]

theorem hasTerminator_append {d : List Nat} (h : HasTerminator d) (e : List Nat) :
    HasTerminator (d ++ e) := by
  have hi : d <:+: d ++ e := (List.prefix_append d e).isInfix
  unfold HasTerminator Contains at *
  rcases h with h | h | h
  · exact Or.inl (h.trans hi)
  · exact Or.inr (Or.inl (h.trans hi))
  · exact Or.inr (Or.inr (h.trans hi))

theorem loopInit_eq (rx0 : List Nat) : loopInit rx0 = frameState [] 0 := by
  simp [loopInit, frameState, ESP8266_ClearBuffer]

theorem loopIter_frame (hal : Hal) (start timeout : Nat) (rx0 : List Nat) :
    ∀ k, (∀ j < k, u32sub (hal.tick (j + 1)) start < timeout) →
      (delivered hal k).length ≤ 511 → NulFree (delivered hal k) →
      ¬ HasTerminator (delivered hal k) →
      loopIter hal start timeout (loopInit rx0) k
        = LoopStep.next (frameState (delivered hal k) k) := by
  intro k
  induction k with
  | zero =>
    intro _ _ _ _
    simp [loopIter, loopInit_eq, delivered]
  | succ k ih =>
    intro hdead hlen hnul hterm
    have hd := delivered_succ hal k
    have hdk : u32sub (hal.tick (k + 1)) start < timeout := hdead k (Nat.lt_succ_self k)
    have hdead' : ∀ j < k, u32sub (hal.tick (j + 1)) start < timeout :=
      fun j hj => hdead j (Nat.lt_succ_of_lt hj)
    cases hr : hal.receive k with
    | none =>
      rw [hr] at hd
      simp only [List.append_nil] at hd
      rw [hd] at hlen hnul hterm ⊢
      simp only [loopIter, ih hdead' hlen hnul hterm]
      exact step_idle hal start timeout _ k hdk hr
    | some b =>
      rw [hr] at hd
      simp only at hd
      rw [hd] at hlen hnul hterm ⊢
      have hlen' : (delivered hal k).length < 511 := by
        simp only [List.length_append, List.length_singleton] at hlen; omega
      have hnul' : NulFree (delivered hal k) :=
        fun x hx => hnul x (List.mem_append_left _ hx)
      have hterm' : ¬ HasTerminator (delivered hal k) :=
        fun h => hterm (hasTerminator_append h _)
      simp only [loopIter, ih hdead' (Nat.le_of_lt hlen') hnul' hterm']
      rw [step_byte hal start timeout _ k b hdk hr hlen' hnul, if_neg hterm]

theorem sendAndWait_of_exit (hal : Hal) (rx0 cmd : List Nat) (timeout fuel : Nat)
    (why : LoopExit) (st : LoopState) (htx : hal.transmitOk = true)
    (h : loopIter hal (hal.tick 0) timeout (loopInit rx0) fuel = LoopStep.exit why st)
    (hwhy : why = LoopExit.deadline ∨ why = LoopExit.terminator) :
    ESP8266_SendAndWaitResponse hal rx0 (some cmd) timeout fuel
      = Except.ok
          { response :=
              { status := ESP8266_ParseResponse (some st.rx_buffer) (some cmd),
                data := if st.rx_index < 256 then strcpy (List.replicate 256 0) st.rx_buffer
                        else List.replicate 256 0,
                data_length := st.rx_index },
            rx_buffer := st.rx_buffer, transmits := 1, ticks := st.ticks,
            reads := st.reads } := by
  unfold loopInit at h
  rcases hwhy with rfl | rfl
  · simp only [ESP8266_SendAndWaitResponse, htx, if_true, h, response0]
    split <;> rfl
  · simp only [ESP8266_SendAndWaitResponse, htx, if_true, h, response0]
    split <;> rfl

theorem cstr_zeros (m : Nat) : cstr (List.replicate m 0) = [] :=
  cstr_append_zeros (d := []) (fun _ hb => absurd hb (List.not_mem_nil _)) m

theorem strcpy_zeros (m : Nat) :
    strcpy (List.replicate 256 0) (List.replicate m 0) = List.replicate 256 0 := by
  simp only [strcpy, cstr_zeros, List.length_nil, List.nil_append, List.drop_replicate]
  exact (List.replicate_succ (n := 255) (a := 0)).symm

theorem delivered_eq_nil (hal : Hal) (k : Nat) (h : ∀ j < k, hal.receive j = none) :
    delivered hal k = [] := by
  induction k with
  | zero => simp [delivered]
  | succ k ih =>
    rw [delivered_succ, ih (fun j hj => h j (Nat.lt_succ_of_lt hj)), h k (Nat.lt_succ_self k)]
    rfl

theorem loopStep_terminator (hal : Hal) (start timeout : Nat) (st st' : LoopState)
    (h : loopStep hal start timeout st = LoopStep.exit LoopExit.terminator st') :
    frameComplete st'.rx_buffer = true := by
  simp only [loopStep] at h
  split at h
  · split at h
    · cases h
    · split at h
      · split at h
        · cases h
        · split at h
          · cases h
          · split at h
            · rename_i hc
              injection h with _ h2
              rw [← h2]
              exact hc
            · cases h
      · cases h
  · cases h

theorem loopIter_terminator (hal : Hal) (start timeout : Nat) (init : LoopState) :
    ∀ (k : Nat) (st : LoopState),
      loopIter hal start timeout init k = LoopStep.exit LoopExit.terminator st →
      frameComplete st.rx_buffer = true := by
  intro k
  induction k with
  | zero => intro st h; cases h
  | succ k ih =>
    intro st h
    simp only [loopIter] at h
    split at h
    · exact loopStep_terminator hal start timeout _ st h
    · rename_i why st' hk
      injection h with h1 h2
      subst h1 h2
      exact ih _ hk

theorem contains_of_hasTerminator {f : List Nat} (h : HasTerminator f) :
    Contains f "OK" ∨ Contains f "ERROR" ∨ Contains f "FAIL" := by
  unfold HasTerminator Contains at *
  rcases h with h | h | h
  · exact Or.inl (List.IsInfix.trans (by decide) h)
  · exact Or.inr (Or.inl (List.IsInfix.trans (by decide) h))
  · exact Or.inr (Or.inr (List.IsInfix.trans (by decide) h))

theorem parseResponse_of_hasTerminator (buf : List Nat) (cmd : Option (List Nat))
    (h : HasTerminator (cstr buf)) :
    ESP8266_ParseResponse (some buf) cmd
      = if Contains (cstr buf) "OK" then ESP8266_OK else ESP8266_ERROR_COMMAND := by
  simp only [ESP8266_ParseResponse,
    strstr_isSome_iff buf "OK" (by decide), strstr_isSome_iff buf "ERROR" (by decide),
    strstr_isSome_iff buf "FAIL" (by decide)]
  by_cases h1 : Contains (cstr buf) "OK"
  · simp [h1]
  · rcases contains_of_hasTerminator h with h2 | h2 | h2
    · exact absurd h2 h1
    · simp [h1, h2]
    · by_cases h3 : Contains (cstr buf) "ERROR" <;> simp [h1, h2, h3]

theorem parseResponse_frame {d : List Nat} (h : NulFree d) (m : Nat) (cmd : Option (List Nat)) :
    ESP8266_ParseResponse (some (d ++ List.replicate m 0)) cmd = classifyReference d := by
  simp only [ESP8266_ParseResponse, classifyReference,
    strstr_isSome_iff _ "OK" (by decide), strstr_isSome_iff _ "ERROR" (by decide),
    strstr_isSome_iff _ "FAIL" (by decide), strstr_isSome_iff _ "+CWJAP:1" (by decide),
    strstr_isSome_iff _ "+CWJAP:2" (by decide), strstr_isSome_iff _ "+CWJAP:3" (by decide),
    strstr_isSome_iff _ "+CWJAP:4" (by decide), cstr_append_zeros h]

theorem strcpy_frame {d : List Nat} (h : NulFree d) (hlen : d.length < 256) (m : Nat) :
    strcpy (List.replicate 256 0) (d ++ List.replicate m 0)
      = d ++ List.replicate (256 - d.length) 0 := by
  simp only [strcpy, cstr_append_zeros h, List.drop_replicate]
  have : 256 - d.length = (256 - (d.length + 1)) + 1 := by omega
  rw [this, List.replicate_succ]

theorem loopStep_inv (hal : Hal) (start timeout : Nat) (st : LoopState) (h : RxInv st) :
    StepInv (loopStep hal start timeout st) := by
  obtain ⟨hlen, hidx, hnul⟩ := h
  have hst : RxInv st := ⟨hlen, hidx, hnul⟩
  simp only [ESP8266_RX_BUFFER_SIZE] at hlen hidx
  simp only [loopStep]
  split
  · split
    · exact hst
    · rename_i c _
      split
      · rename_i hlt
        simp only [ESP8266_RX_BUFFER_SIZE] at hlt
        have h1 : st.rx_index < st.rx_buffer.length := by omega
        have h2 : (st.rx_index + 1) % 65536 = st.rx_index + 1 := by omega
        have h3 : st.rx_index + 1 < (st.rx_buffer.set st.rx_index (c % 256)).length := by
          rw [List.length_set]; omega
        simp only [store, h1, if_true, h2, h3]
        have hinv : ∀ t r, RxInv ⟨(st.rx_buffer.set st.rx_index (c % 256)).set
            (st.rx_index + 1) 0, st.rx_index + 1, t, r⟩ := by
          intro t r
          refine ⟨?_, ?_, ?_⟩
          · simp only [List.length_set, hlen, ESP8266_RX_BUFFER_SIZE]
          · simp only [ESP8266_RX_BUFFER_SIZE]; omega
          · simp only
            rw [List.getElem?_set_self h3]
        split
        · exact ⟨by decide, hinv _ _⟩
        · exact hinv _ _
      · exact ⟨by decide, hst⟩
  · exact ⟨by decide, hst⟩

theorem loopIter_inv (hal : Hal) (start timeout : Nat) (rx0 : List Nat) (k : Nat) :
    StepInv (loopIter hal start timeout (loopInit rx0) k) := by
  induction k with
  | zero =>
    simp only [loopIter, StepInv, loopInit, RxInv, ESP8266_ClearBuffer, ESP8266_RX_BUFFER_SIZE,
      List.length_replicate, true_and]
    refine ⟨by omega, ?_⟩
    rw [List.getElem?_replicate]
    rfl
  | succ k ih =>
    simp only [loopIter]
    split
    · rename_i st hk
      rw [hk] at ih
      exact loopStep_inv hal start timeout st ih
    · rename_i why st hk
      rw [hk] at ih
      exact ih

theorem loopStep_overflow (hal : Hal) (start timeout : Nat) (st : LoopState) (b : Nat)
    (hidx : st.rx_index = 511) (hdead : u32sub (hal.tick st.ticks) start < timeout)
    (hrecv : hal.receive st.reads = some b) :
    loopStep hal start timeout st
      = LoopStep.exit LoopExit.overflow
          { st with ticks := st.ticks + 1, reads := st.reads + 1 } := by
  simp [loopStep, hdead, hrecv, hidx, ESP8266_RX_BUFFER_SIZE]

theorem decimalAux_digits : ∀ (fuel n b : Nat), b ∈ decimalAux fuel n → 48 ≤ b ∧ b ≤ 57 := by
  intro fuel
  induction fuel with
  | zero =>
    intro n b hb
    simp only [decimalAux, List.mem_singleton] at hb
    omega
  | succ fuel ih =>
    intro n b hb
    simp only [decimalAux] at hb
    split at hb
    · simp only [List.mem_singleton] at hb
      omega
    · rcases List.mem_append.mp hb with h | h
      · exact ih _ _ h
      · simp only [List.mem_singleton] at h
        omega

theorem decimalAux_ne_nil (fuel n : Nat) : decimalAux fuel n ≠ [] := by
  cases fuel with
  | zero => simp [decimalAux]
  | succ fuel =>
    simp only [decimalAux]
    split <;> simp

theorem atoiDigits_decimalAux : ∀ (fuel n acc : Nat) (rest : List Nat), n ≤ fuel →
    atoiDigits acc (decimalAux fuel n ++ rest)
      = atoiDigits (acc * 10 ^ (decimalAux fuel n).length + n) rest := by
  intro fuel
  induction fuel with
  | zero =>
    intro n acc rest hn
    have : n = 0 := by omega
    subst this
    simp [decimalAux, atoiDigits, isdigit]
  | succ fuel ih =>
    intro n acc rest hn
    simp only [decimalAux]
    split
    · rename_i h10
      have hd : isdigit (48 + n) = true := by simp [isdigit]; omega
      simp [atoiDigits, hd]
    · rename_i h10
      have hle : n / 10 ≤ fuel := by omega
      have hd : isdigit (48 + n % 10) = true := by simp [isdigit]; omega
      rw [List.append_assoc, ih (n / 10) acc _ hle]
      simp only [List.singleton_append, atoiDigits, hd, if_true, List.length_append,
        List.length_singleton, Nat.add_sub_cancel_left]
      congr 1
      rw [pow_succ]
      have := Nat.div_add_mod n 10
      nlinarith [this]

theorem atoi_decimal (n c : Nat) (r : List Nat) (hc : isdigit c = false) :
    atoi (decimal n ++ c :: r) = (n : Int) := by
  have hA := atoiDigits_decimalAux n n 0 (c :: r) (Nat.le_refl n)
  have hne := decimalAux_ne_nil n n
  have hdig := decimalAux_digits n n
  unfold decimal
  cases hl : decimalAux n n with
  | nil => exact absurd hl hne
  | cons d t =>
    have hd := hdig d (by rw [hl]; exact List.mem_cons_self _ _)
    have hsp : isspace d = false := by simp [isspace]; omega
    have h45 : d ≠ 45 := by omega
    have h43 : d ≠ 43 := by omega
    rw [hl] at hA
    simp only [List.cons_append] at hA
    have hgoal : atoi (d :: (t ++ c :: r)) = (atoiDigits 0 (d :: (t ++ c :: r)) : Int) := by
      simp only [atoi, hsp, h45, h43, if_false, Bool.false_eq_true]
    show atoi (d :: (t ++ c :: r)) = (n : Int)
    rw [hgoal, hA]
    simp [atoiDigits, hc]

theorem strchr_skip (c : Nat) : ∀ (pre rest : List Nat), (∀ b ∈ pre, b ≠ c ∧ b ≠ 0) →
    strchr (pre ++ c :: rest) c = some pre.length := by
  intro pre
  induction pre with
  | nil => intro rest _; simp [strchr]
  | cons a t ih =>
    intro rest h
    have ha := h a (List.mem_cons_self _ _)
    have ih' := ih rest (fun b hb => h b (List.mem_cons_of_mem _ hb))
    show strchr (a :: (t ++ c :: rest)) c = some (t.length + 1)
    simp only [strchr, ha.1, ha.2, if_false, ih', Option.map_some']

theorem strncmpEq_prefix : ∀ (p r : List Nat), NulFree p →
    strncmpEq (p ++ r) p p.length = true := by
  intro p
  induction p with
  | nil => intro r _; simp [strncmpEq]
  | cons a t ih =>
    intro r h
    have ha : a ≠ 0 := h a (List.mem_cons_self _ _)
    simp only [List.cons_append, List.length_cons, strncmpEq, List.headD_cons, bne_self_eq_false,
      Bool.false_eq_true, if_false, ha, List.tail_cons]
    exact ih r (fun b hb => h b (List.mem_cons_of_mem _ hb))

theorem drop_step {raw a Y : List Nat} {k c : Nat} (h : raw.drop k = a ++ c :: Y) :
    raw.drop (k + a.length + 1) = Y := by
  have : raw.drop (k + a.length + 1) = (raw.drop k).drop (a.length + 1) := by
    rw [List.drop_drop, Nat.add_assoc]
  rw [this, h]
  simp

theorem getD_of_drop {raw Y : List Nat} {k c : Nat} (h : raw.drop k = c :: Y) :
    raw.getD k 0 = c := by
  have : raw.getD k 0 = (raw.drop k).headD 0 := by
    rw [List.getD_eq_getElem?_getD, List.headD_eq_head?_getD, List.head?_drop]
  rw [this, h]
  rfl

theorem parse_layout (raw A B C D : List Nat)
    (hmark : strncmpEq raw (bytes "+MQTTSUBRECV:") 13 = true ∨
      (strstr raw (bytes "+MQTTSUBRECV:")).isSome = true)
    (h0 : raw.drop 13 = A ++ 44 :: (B ++ 44 :: (C ++ 44 :: D)))
    (hA : ∀ b ∈ A, b ≠ 44 ∧ b ≠ 0) (hB : ∀ b ∈ B, b ≠ 44 ∧ b ≠ 0)
    (hC : ∀ b ∈ C, b ≠ 44 ∧ b ≠ 0) :
    MQTT_ParseReceivedMessage raw
      = { link_id := (atoi (A ++ 44 :: (B ++ 44 :: (C ++ 44 :: D))) % 256).toNat,
          topic := parseTopic raw (13 + A.length) (13 + A.length + 1 + B.length),
          message_length := (atoi (C ++ 44 :: D) % 65536).toNat,
          message := parseMessage D,
          valid := 1 } := by
  have h1 := strchr_skip 44 A (B ++ 44 :: (C ++ 44 :: D)) hA
  have hR2 : raw.drop (13 + A.length + 1) = B ++ 44 :: (C ++ 44 :: D) := drop_step h0
  have h2 := strchr_skip 44 B (C ++ 44 :: D) hB
  have hR3 : raw.drop (13 + A.length + 1 + B.length + 1) = C ++ 44 :: D := drop_step hR2
  have h3 := strchr_skip 44 C D hC
  have hR4 : raw.drop (13 + A.length + 1 + B.length + 1 + C.length + 1) = D := drop_step hR3
  have hstart : ∃ o, (if strncmpEq raw (bytes "+MQTTSUBRECV:") 13 = true then some 0
      else strstr raw (bytes "+MQTTSUBRECV:")) = some o := by
    rcases hmark with h | h
    · exact ⟨0, by rw [if_pos h]⟩
    · by_cases hs : strncmpEq raw (bytes "+MQTTSUBRECV:") 13 = true
      · exact ⟨0, by rw [if_pos hs]⟩
      · rw [if_neg hs]
        exact Option.isSome_iff_exists.mp h
  obtain ⟨o, ho⟩ := hstart
  simp only [MQTT_ParseReceivedMessage, ho, h0, h1, hR2, h2, hR3, h3, hR4]

theorem cstr_take_prefix {T : List Nat} (h : NulFree T) (X : List Nat) :
    (cstr (T ++ X)).take T.length = T := by
  unfold cstr
  rw [List.takeWhile_append_of_pos (fun a ha => by simpa using h a ha)]
  simp

theorem parseTopic_quoted (raw T R : List Nat) (comma1 comma2 : Nat)
    (hraw : raw.drop (comma1 + 1) = 34 :: (T ++ 34 :: R))
    (hT : ∀ b ∈ T, b ≠ 34 ∧ b ≠ 0) (hlen : T.length ≤ 63)
    (hc2 : comma1 + 1 + 1 + T.length < comma2) :
    parseTopic raw comma1 comma2 = T ++ List.replicate (64 - T.length) 0 := by
  have hq : raw.getD (comma1 + 1) 0 = 34 := getD_of_drop hraw
  have hd : raw.drop (comma1 + 1 + 1) = T ++ 34 :: R := by
    have := drop_step (a := []) (by simpa using hraw)
    simpa using this
  have hs := strchr_skip 34 T R hT
  have hnul : NulFree T := fun b hb => (hT b hb).2
  simp only [parseTopic, hq, if_true, hd, hs, Option.map_some', hc2, parsed0]
  have hi : ((comma1 + 1 + 1 + T.length : Nat) : Int) - ((comma1 + 1 + 1 : Nat) : Int)
      = (T.length : Int) := by push_cast; ring
  rw [hi]
  by_cases h0 : T.length = 0
  · have : T = [] := List.length_eq_zero.mp h0
    subst this
    simp
  · have hpos : (0 : Int) < (T.length : Int) ∧ (T.length : Int) < 64 := by omega
    rw [if_pos hpos]
    simp only [Int.toNat_ofNat, strncpy, cstr_take_prefix hnul, Nat.sub_self,
      List.replicate_zero, List.append_nil, List.drop_replicate]
    obtain ⟨m, hm⟩ : ∃ m, 64 - T.length = m + 1 := ⟨63 - T.length, by omega⟩
    rw [hm, set_zero_frame]

theorem set_append_at (P X : List Nat) (i v : Nat) :
    (P ++ X).set (P.length + i) v = P ++ X.set i v := by
  induction P with
  | nil => simp
  | cons a t ih =>
    have : (a :: t).length + i = (t.length + i) + 1 := by simp; omega
    rw [this]
    simp [ih]

theorem getD_append_at (P X : List Nat) (i v : Nat) :
    (P ++ X).getD (P.length + i) v = X.getD i v := by
  induction P with
  | nil => simp
  | cons a t ih =>
    have : (a :: t).length + i = (t.length + i) + 1 := by simp; omega
    rw [this]
    simpa using ih

theorem parseMessage_crlf (P : List Nat) (hP : NulFree P) (hlen : P.length ≤ 253) :
    parseMessage (P ++ [13, 10]) = P ++ List.replicate (256 - P.length) 0 := by
  have hnul : NulFree (P ++ [13, 10]) := by
    intro b hb
    rcases List.mem_append.mp hb with h | h
    · exact hP b h
    · simp at h; omega
  obtain ⟨m, hm⟩ : ∃ m, 253 - P.length = m := ⟨_, rfl⟩
  have h1 : strncpy parsed0.message (P ++ [13, 10]) (256 - 1)
      = P ++ 13 :: 10 :: (List.replicate m 0 ++ [0]) := by
    have ht : (P ++ [13, 10]).take 255 = P ++ [13, 10] :=
      List.take_of_length_le (by simp; omega)
    simp only [strncpy, parsed0, cstr_of_nulFree hnul, ht, List.drop_replicate]
    have : 255 - (P ++ [13, 10]).length = m := by simp; omega
    rw [this]
    simp
  have h2 : (P ++ 13 :: 10 :: (List.replicate m 0 ++ [0])).set (256 - 1) 0
      = P ++ 13 :: 10 :: List.replicate (m + 1) 0 := by
    have e : 256 - 1 = P.length + (2 + m) := by omega
    rw [e, set_append_at]
    have e2 : (13 :: 10 :: (List.replicate m 0 ++ [0])).set (2 + m) 0
        = 13 :: 10 :: (List.replicate m 0 ++ [0]).set m 0 := by
      rw [Nat.add_comm]; rfl
    rw [e2]
    have e3 := set_frame (List.replicate m 0) 0 0
    simp only [List.length_replicate] at e3
    rw [show List.replicate m 0 ++ [0] = List.replicate m 0 ++ List.replicate (0 + 1) 0 from rfl,
      e3, List.replicate_succ']
    simp
  have h3 : strlen (P ++ 13 :: 10 :: List.replicate (m + 1) 0) = P.length + 2 := by
    have e : P ++ 13 :: 10 :: List.replicate (m + 1) 0
        = (P ++ [13, 10]) ++ List.replicate (m + 1) 0 := by simp
    rw [strlen, e, cstr_append_zeros hnul]
    simp
  have i1 : (((P.length + 2 : Nat) : Int) - 1).toNat = P.length + 1 := by omega
  have i2 : (((P.length + 2 : Nat) : Int) - 2).toNat = P.length + 0 := by omega
  have hp1 : (0 : Int) < ((P.length + 2 : Nat) : Int) := by omega
  have hp2 : (1 : Int) < ((P.length + 2 : Nat) : Int) := by omega
  simp only [parseMessage, h1, h2, h3, i1, i2, hp1, hp2, true_and, getD_append_at,
    set_append_at, List.getD_cons_succ, List.getD_cons_zero, List.set_cons_succ,
    List.set_cons_zero, if_true]
  have : 256 - P.length = m + 1 + 1 + 1 := by omega
  rw [this, List.replicate_succ (n := m + 1 + 1), List.replicate_succ (n := m + 1)]

theorem delivered_halOfStream (s : List Nat) (hs : ∀ b ∈ s, b < 256) :
    ∀ k, delivered (halOfStream s) k = s.take k := by
  intro k
  induction k with
  | zero => simp [delivered]
  | succ k ih =>
    rw [delivered_succ, ih, List.take_succ]
    congr 1
    show (match s[k]? with
      | none => []
      | some b => [b % 256]) = s[k]?.toList
    cases h : s[k]? with
    | none => rfl
    | some b =>
      have hb : b ∈ s := List.getElem?_mem h
      simp [Nat.mod_eq_of_lt (hs b hb)]

theorem cr_mem_of_hasTerminator {f : List Nat} (h : HasTerminator f) : 13 ∈ f := by
  unfold HasTerminator Contains at h
  rcases h with h | h | h <;> exact h.subset (by decide)

/-! ## Lemmas for the later claims: classifier frames, loop bounds, record fields -/

theorem strncmpEq_starts_cstr : ∀ (p raw : List Nat), NulFree p →
    strncmpEq raw p p.length = true → p <+: cstr raw := by
  intro p
  induction p with
  | nil => intro raw _ _; exact List.nil_prefix
  | cons a t ih =>
    intro raw hp h
    have ha : a ≠ 0 := hp a (List.mem_cons_self _ _)
    cases raw with
    | nil =>
      simp only [List.length_cons, strncmpEq, List.headD_nil, List.headD_cons] at h
      have : (0 != a) = true := by simpa using Ne.symm ha
      simp [this] at h
    | cons b raw' =>
      simp only [List.length_cons, strncmpEq, List.headD_cons, List.tail_cons] at h
      by_cases hb : b = a
      · subst hb
        simp only [bne_self_eq_false, Bool.false_eq_true, if_false, ha] at h
        have := ih raw' (fun x hx => hp x (List.mem_cons_of_mem _ hx)) h
        have hc : cstr (b :: raw') = b :: cstr raw' := by
          have hb0 : (b != 0) = true := by simpa using ha
          simp only [cstr, List.takeWhile, hb0]
        rw [hc]
        exact (List.prefix_cons_inj b).mpr this
      · have : (b != a) = true := by simpa using hb
        simp [this] at h

theorem parse_of_no_marker (raw : List Nat) (h : ¬ Contains (cstr raw) "+MQTTSUBRECV:") :
    MQTT_ParseReceivedMessage raw = parsed0 := by
  have h1 : strncmpEq raw (bytes "+MQTTSUBRECV:") 13 = false := by
    by_contra hc
    have hc' : strncmpEq raw (bytes "+MQTTSUBRECV:") (bytes "+MQTTSUBRECV:").length = true := by
      simpa using hc
    exact h (strncmpEq_starts_cstr _ raw (by decide) hc').isInfix
  have h2 : strstr raw (bytes "+MQTTSUBRECV:") = none := by
    have := (strstr_isSome_iff raw "+MQTTSUBRECV:" (by decide)).not.mpr h
    simpa using this
  simp only [MQTT_ParseReceivedMessage, h1, h2, Bool.false_eq_true, if_false]
  rfl

theorem parse_invalid_is_zero (raw : List Nat)
    (h : (MQTT_ParseReceivedMessage raw).valid = 0) :
    MQTT_ParseReceivedMessage raw = parsed0 := by
  simp only [MQTT_ParseReceivedMessage] at h ⊢
  split at h
  · rfl
  · split at h
    · rfl
    · split at h
      · rfl
      · split at h
        · rfl
        · simp at h

theorem cstr_append_zeros_gen (X : List Nat) (m : Nat) :
    cstr (X ++ List.replicate m 0) = cstr X := by
  induction X with
  | nil => exact cstr_zeros m
  | cons a t ih =>
    unfold cstr at ih ⊢
    show List.takeWhile (fun b => b != 0) (a :: (t ++ List.replicate m 0))
      = List.takeWhile (fun b => b != 0) (a :: t)
    rw [List.takeWhile_cons, List.takeWhile_cons, ih]

theorem hasTerminator_mono {a b : List Nat} (h : HasTerminator a) (hi : a <:+: b) :
    HasTerminator b := by
  unfold HasTerminator Contains at *
  rcases h with h | h | h
  · exact Or.inl (h.trans hi)
  · exact Or.inr (Or.inl (h.trans hi))
  · exact Or.inr (Or.inr (h.trans hi))

theorem not_frameComplete_of_no_terminator (X : List Nat) (m : Nat)
    (h : ¬ HasTerminator X) : frameComplete (X ++ List.replicate m 0) = false := by
  have hp : cstr X <+: X := List.takeWhile_prefix _
  have : ¬ frameComplete (X ++ List.replicate m 0) = true := by
    rw [frameComplete_iff, cstr_append_zeros_gen]
    exact fun hc => h (hasTerminator_mono hc hp.isInfix)
  simpa using this

theorem step_byte_gen (hal : Hal) (start timeout : Nat) (d : List Nat) (k b : Nat)
    (hdead : u32sub (hal.tick (k + 1)) start < timeout) (hrecv : hal.receive k = some b)
    (hlen : d.length < 511) :
    loopStep hal start timeout (frameState d k)
      = if frameComplete ((d ++ [b % 256]) ++ List.replicate (511 - d.length) 0) = true
        then LoopStep.exit LoopExit.terminator (frameState (d ++ [b % 256]) (k + 1))
        else LoopStep.next (frameState (d ++ [b % 256]) (k + 1)) := by
  obtain ⟨m, hm⟩ : ∃ m, 512 - d.length = m + 2 := ⟨510 - d.length, by omega⟩
  have hm' : 512 - (d.length + 1) = m + 1 := by omega
  have hm'' : 511 - d.length = m + 1 := by omega
  have h1 : d.length < (d ++ List.replicate (m + 2) 0).length := by simp
  have h2 : (d.length + 1) % 65536 = d.length + 1 := by omega
  have h3 : d.length + 1 < (d ++ (b % 256) :: List.replicate (m + 1) 0).length := by simp
  have e : d ++ (b % 256) :: List.replicate (m + 1) 0
      = (d ++ [b % 256]) ++ List.replicate (m + 1) 0 := by simp
  have h4 : (d ++ (b % 256) :: List.replicate (m + 1) 0).set (d.length + 1) 0
      = (d ++ [b % 256]) ++ List.replicate (m + 1) 0 := by
    have := set_zero_frame (d ++ [b % 256]) m
    rw [e]
    simp at this
    simp [this]
  simp only [loopStep, frameState, hdead, hrecv, ESP8266_RX_BUFFER_SIZE, hm, store, if_true,
    h1, set_frame, h2, h3, h4, List.length_append, List.length_singleton, hm', hm'',
    show d.length < 512 - 1 from by omega]
  by_cases hc : frameComplete (d ++ (b % 256) :: List.replicate (m + 1) 0) = true
  · simp [hc]
  · simp [hc]

theorem step_byte_continue (hal : Hal) (start timeout : Nat) (d : List Nat) (k b : Nat)
    (hdead : u32sub (hal.tick (k + 1)) start < timeout) (hrecv : hal.receive k = some b)
    (hlen : d.length < 511) (hterm : ¬ HasTerminator (d ++ [b % 256])) :
    loopStep hal start timeout (frameState d k)
      = LoopStep.next (frameState (d ++ [b % 256]) (k + 1)) := by
  rw [step_byte_gen hal start timeout d k b hdead hrecv hlen,
    not_frameComplete_of_no_terminator _ _ hterm]
  simp

theorem loopIter_frame_gen (hal : Hal) (start timeout : Nat) (rx0 : List Nat) :
    ∀ k, (∀ j < k, u32sub (hal.tick (j + 1)) start < timeout) →
      (delivered hal k).length ≤ 511 → ¬ HasTerminator (delivered hal k) →
      loopIter hal start timeout (loopInit rx0) k
        = LoopStep.next (frameState (delivered hal k) k) := by
  intro k
  induction k with
  | zero =>
    intro _ _ _
    simp [loopIter, loopInit_eq, delivered]
  | succ k ih =>
    intro hdead hlen hterm
    have hd := delivered_succ hal k
    have hdk : u32sub (hal.tick (k + 1)) start < timeout := hdead k (Nat.lt_succ_self k)
    have hdead' : ∀ j < k, u32sub (hal.tick (j + 1)) start < timeout :=
      fun j hj => hdead j (Nat.lt_succ_of_lt hj)
    cases hr : hal.receive k with
    | none =>
      rw [hr] at hd
      simp only [List.append_nil] at hd
      rw [hd] at hlen hterm ⊢
      simp only [loopIter, ih hdead' hlen hterm]
      exact step_idle hal start timeout _ k hdk hr
    | some b =>
      rw [hr] at hd
      simp only at hd
      rw [hd] at hlen hterm ⊢
      have hlen' : (delivered hal k).length < 511 := by
        simp only [List.length_append, List.length_singleton] at hlen; omega
      have hterm' : ¬ HasTerminator (delivered hal k) :=
        fun h => hterm (hasTerminator_append h _)
      simp only [loopIter, ih hdead' (Nat.le_of_lt hlen') hterm']
      exact step_byte_continue hal start timeout _ k b hdk hr hlen' hterm

theorem sendAndWait_overflow (hal : Hal) (rx0 cmd : List Nat) (timeout fuel : Nat)
    (st : LoopState) (htx : hal.transmitOk = true)
    (h : loopIter hal (hal.tick 0) timeout (loopInit rx0) fuel
      = LoopStep.exit LoopExit.overflow st) :
    ESP8266_SendAndWaitResponse hal rx0 (some cmd) timeout fuel
      = Except.ok
          { response := { status := ESP8266_ERROR_BUFFER_OVERFLOW,
                          data := List.replicate 256 0, data_length := 0 },
            rx_buffer := st.rx_buffer, transmits := 1, ticks := st.ticks,
            reads := st.reads } := by
  unfold loopInit at h
  simp only [ESP8266_SendAndWaitResponse, htx, if_true, h, response0]

theorem cstr_append_nul {f : List Nat} (h : NulFree f) (tl : List Nat) :
    cstr (f ++ 0 :: tl) = f := by
  unfold cstr
  rw [List.takeWhile_append_of_pos (fun a ha => by simpa using h a ha)]
  simp

theorem cstr_of_rxInv {st : LoopState} (hinv : RxInv st)
    (hnul : NulFree (st.rx_buffer.take st.rx_index)) :
    cstr st.rx_buffer = st.rx_buffer.take st.rx_index ∧
    (st.rx_buffer.take st.rx_index).length = st.rx_index := by
  obtain ⟨hlen, hidx, hz⟩ := hinv
  simp only [ESP8266_RX_BUFFER_SIZE] at hlen hidx
  have hlt : st.rx_index < st.rx_buffer.length := by omega
  have hdrop : st.rx_buffer.drop st.rx_index
      = 0 :: st.rx_buffer.drop (st.rx_index + 1) := by
    rw [List.drop_eq_getElem_cons hlt]
    have := List.getElem?_eq_getElem hlt
    rw [hz] at this
    rw [← Option.some.inj this]
  constructor
  · conv_lhs => rw [← List.take_append_drop st.rx_index st.rx_buffer, hdrop]
    exact cstr_append_nul hnul _
  · rw [List.length_take]; omega

theorem strcpy_short {f : List Nat} (h : NulFree f) (src : List Nat)
    (hsrc : cstr src = f) :
    cstr (strcpy (List.replicate 256 0) src) = f := by
  simp only [strcpy, hsrc]
  exact cstr_append_nul h _

theorem sendAndWait_deadline (hal : Hal) (rx0 cmd : List Nat) (timeout k fuel : Nat)
    (htx : hal.transmitOk = true)
    (hdead : ∀ j < k, u32sub (hal.tick (j + 1)) (hal.tick 0) < timeout)
    (hlen : (delivered hal k).length ≤ 511) (hterm : ¬ HasTerminator (delivered hal k))
    (hstop : ¬ u32sub (hal.tick (k + 1)) (hal.tick 0) < timeout) (hfuel : k < fuel) :
    ESP8266_SendAndWaitResponse hal rx0 (some cmd) timeout fuel
      = Except.ok
          { response :=
              { status := ESP8266_ParseResponse
                  (some (delivered hal k ++ List.replicate (512 - (delivered hal k).length) 0))
                  (some cmd),
                data := if (delivered hal k).length < 256 then
                    strcpy (List.replicate 256 0)
                      (delivered hal k ++ List.replicate (512 - (delivered hal k).length) 0)
                  else List.replicate 256 0,
                data_length := (delivered hal k).length },
            rx_buffer := delivered hal k ++ List.replicate (512 - (delivered hal k).length) 0,
            transmits := 1, ticks := k + 2, reads := k } := by
  have hk := loopIter_frame_gen hal (hal.tick 0) timeout rx0 k hdead hlen hterm
  have hk1 : loopIter hal (hal.tick 0) timeout (loopInit rx0) (k + 1)
      = LoopStep.exit LoopExit.deadline { frameState (delivered hal k) k with ticks := k + 2 } := by
    simp only [loopIter, hk]
    exact step_deadline hal _ timeout _ k hstop
  have hf := loopIter_exit_stable hal _ timeout _ hk1 fuel hfuel
  rw [sendAndWait_of_exit hal rx0 cmd timeout fuel _ _ htx hf (Or.inl rfl)]
  simp only [frameState, ESP8266_RX_BUFFER_SIZE]

theorem loopStep_next_facts (hal : Hal) (start timeout : Nat) (st st' : LoopState)
    (h : loopStep hal start timeout st = LoopStep.next st') :
    u32sub (hal.tick st.ticks) start < timeout ∧ st'.ticks = st.ticks + 1 ∧
    st'.reads = st.reads + 1 ∧
    ((hal.receive st.reads = none ∧ st'.rx_index = st.rx_index) ∨
     (∃ b, hal.receive st.reads = some b ∧ st.rx_index < 511 ∧
        st'.rx_index = (st.rx_index + 1) % 65536)) := by
  simp only [loopStep] at h
  split at h
  · rename_i hd
    split at h
    · rename_i hr
      injection h with h
      subst h
      exact ⟨hd, rfl, rfl, Or.inl ⟨hr, rfl⟩⟩
    · rename_i c hr
      split at h
      · rename_i hlt
        split at h
        · cases h
        · split at h
          · cases h
          · split at h
            · cases h
            · injection h with h
              subst h
              exact ⟨hd, rfl, rfl, Or.inr ⟨c, hr, hlt, rfl⟩⟩
      · cases h
  · cases h

theorem loopStep_exit_facts (hal : Hal) (start timeout : Nat) (st st' : LoopState)
    (why : LoopExit) (h : loopStep hal start timeout st = LoopStep.exit why st') :
    (why = LoopExit.deadline ∧ st'.reads = st.reads) ∨
    ((∃ b, hal.receive st.reads = some b) ∧ st'.reads = st.reads + 1) := by
  simp only [loopStep] at h
  split at h
  · split at h
    · cases h
    · rename_i c hr
      split at h
      · split at h
        · injection h with _ h2; subst h2
          exact Or.inr ⟨⟨c, hr⟩, rfl⟩
        · split at h
          · injection h with _ h2; subst h2
            exact Or.inr ⟨⟨c, hr⟩, rfl⟩
          · split at h
            · injection h with _ h2; subst h2
              exact Or.inr ⟨⟨c, hr⟩, rfl⟩
            · cases h
      · injection h with _ h2; subst h2
        exact Or.inr ⟨⟨c, hr⟩, rfl⟩
  · injection h with h1 h2
    subst h1 h2
    exact Or.inl ⟨rfl, rfl⟩

theorem idleReads_succ (hal : Hal) (k : Nat) :
    idleReads hal (k + 1) = idleReads hal k + (if hal.receive k = none then 1 else 0) := by
  unfold idleReads
  rw [List.range_succ, List.filter_append, List.length_append]
  cases h : hal.receive k <;> simp [h]

theorem delivered_length_succ (hal : Hal) (k : Nat) :
    (delivered hal (k + 1)).length
      = (delivered hal k).length + (if hal.receive k = none then 0 else 1) := by
  rw [delivered_succ, List.length_append]
  cases h : hal.receive k <;> simp

theorem delivered_add_idle (hal : Hal) (k : Nat) :
    (delivered hal k).length + idleReads hal k = k := by
  induction k with
  | zero => simp [delivered, idleReads]
  | succ k ih =>
    rw [idleReads_succ, delivered_length_succ]
    cases h : hal.receive k <;> simp <;> omega

theorem tick_ge_idle (hal : Hal) (N : Nat)
    (hmono : ∀ k < N, hal.tick k ≤ hal.tick (k + 1))
    (hadv : ∀ j, j + 2 ≤ N → hal.receive j = none → hal.tick (j + 1) + 1 ≤ hal.tick (j + 2)) :
    ∀ j, j + 1 ≤ N → hal.tick 0 + idleReads hal j ≤ hal.tick (j + 1) := by
  intro j
  induction j with
  | zero =>
    intro hj
    simpa [idleReads] using hmono 0 (by omega)
  | succ j ih =>
    intro hj
    have h1 := ih (by omega)
    rw [idleReads_succ]
    show hal.tick 0 + _ ≤ hal.tick (j + 2)
    cases hr : hal.receive j with
    | none =>
      have := hadv j (by omega) hr
      simp only [if_true]
      omega
    | some b =>
      have : hal.tick (j + 1) ≤ hal.tick (j + 2) := hmono (j + 1) (by omega)
      simp only [reduceCtorEq, if_false]
      omega

theorem idle_le_timeout (hal : Hal) (timeout N : Nat)
    (hrange : ∀ k ≤ N, hal.tick k < 4294967296)
    (hmono : ∀ k < N, hal.tick k ≤ hal.tick (k + 1))
    (hadv : ∀ j, j + 2 ≤ N → hal.receive j = none → hal.tick (j + 1) + 1 ≤ hal.tick (j + 2)) :
    ∀ j, j ≤ N → (∀ i < j, u32sub (hal.tick (i + 1)) (hal.tick 0) < timeout) →
      idleReads hal j ≤ timeout := by
  intro j
  induction j with
  | zero => intro _ _; simp [idleReads]
  | succ j ih =>
    intro hj hchk
    have h1 := ih (by omega) (fun i hi => hchk i (by omega))
    rw [idleReads_succ]
    cases hr : hal.receive j with
    | none =>
      have hc := hchk j (by omega)
      have hp := tick_ge_idle hal N hmono hadv j (by omega)
      have r1 := hrange (j + 1) (by omega)
      have r0 := hrange 0 (by omega)
      simp only [u32sub] at hc
      simp only [if_true]
      omega
    | some b =>
      simp only [reduceCtorEq, if_false]
      omega

/-- The loop after `j` iterations when it is still running. -/
theorem loopIter_running (hal : Hal) (timeout : Nat) (rx0 : List Nat) :
    ∀ j st, loopIter hal (hal.tick 0) timeout (loopInit rx0) j = LoopStep.next st →
      st.reads = j ∧ st.ticks = j + 1 ∧ st.rx_index = (delivered hal j).length ∧
      (delivered hal j).length ≤ 511 ∧
      (∀ i < j, u32sub (hal.tick (i + 1)) (hal.tick 0) < timeout) := by
  intro j
  induction j with
  | zero =>
    intro st h
    simp only [loopIter] at h
    injection h with h
    subst h
    simp [loopInit, delivered]
  | succ j ih =>
    intro st h
    simp only [loopIter] at h
    split at h
    · rename_i st0 h0
      obtain ⟨hr, ht, hi, hl, hc⟩ := ih st0 h0
      obtain ⟨f1, f2, f3, f4⟩ := loopStep_next_facts hal _ timeout st0 st h
      rw [ht] at f1 f2
      rw [hr] at f3 f4
      refine ⟨f3, by omega, ?_, ?_, ?_⟩
      · rw [delivered_length_succ]
        rcases f4 with ⟨hn, hx⟩ | ⟨b, hb, hlt, hx⟩
        · simp [hn, hx, hi]
        · simp only [hb, reduceCtorEq, if_false, hx]
          omega
      · rw [delivered_length_succ]
        rcases f4 with ⟨hn, _⟩ | ⟨b, hb, hlt, _⟩
        · simp [hn, hl]
        · simp only [hb, reduceCtorEq, if_false]
          omega
      · intro i hi'
        rcases Nat.lt_succ_iff_lt_or_eq.mp hi' with h' | h'
        · exact hc i h'
        · subst h'; exact f1
    · cases h

theorem loopIter_exit_bounds (hal : Hal) (timeout N : Nat) (rx0 : List Nat)
    (hrange : ∀ k ≤ N, hal.tick k < 4294967296)
    (hmono : ∀ k < N, hal.tick k ≤ hal.tick (k + 1))
    (hadv : ∀ j, j + 2 ≤ N → hal.receive j = none → hal.tick (j + 1) + 1 ≤ hal.tick (j + 2)) :
    ∀ j, j ≤ N → ∀ why st,
      loopIter hal (hal.tick 0) timeout (loopInit rx0) j = LoopStep.exit why st →
      (delivered hal st.reads).length ≤ 512 ∧ idleReads hal st.reads ≤ timeout := by
  intro j
  induction j with
  | zero => intro _ why st h; cases h
  | succ j ih =>
    intro hj why st h
    simp only [loopIter] at h
    split at h
    · rename_i st0 h0
      obtain ⟨hr, _, _, hl, hc⟩ := loopIter_running hal timeout rx0 j st0 h0
      have hq := idle_le_timeout hal timeout N hrange hmono hadv j (by omega) hc
      rcases loopStep_exit_facts hal _ timeout st0 st why h with ⟨_, h2⟩ | ⟨⟨b, hb⟩, h2⟩
      · rw [h2, hr]
        exact ⟨by omega, hq⟩
      · rw [hr] at hb h2
        rw [h2, delivered_length_succ, idleReads_succ]
        simp only [hb, reduceCtorEq, if_false]
        exact ⟨by omega, hq⟩
    · rename_i why0 st0 h0
      injection h with h1 h2
      subst h1 h2
      exact ih (by omega) _ _ h0

theorem loopIter_terminates (hal : Hal) (timeout : Nat) (rx0 : List Nat)
    (hrange : ∀ k ≤ timeout + 513, hal.tick k < 4294967296)
    (hmono : ∀ k < timeout + 513, hal.tick k ≤ hal.tick (k + 1))
    (hadv : ∀ j, j + 2 ≤ timeout + 513 → hal.receive j = none →
      hal.tick (j + 1) + 1 ≤ hal.tick (j + 2)) :
    ∃ why st, loopIter hal (hal.tick 0) timeout (loopInit rx0) (timeout + 513)
      = LoopStep.exit why st := by
  cases h : loopIter hal (hal.tick 0) timeout (loopInit rx0) (timeout + 513) with
  | exit why st => exact ⟨why, st, rfl⟩
  | next st =>
    exfalso
    obtain ⟨_, _, _, hl, hc⟩ := loopIter_running hal timeout rx0 _ st h
    have hq := idle_le_timeout hal timeout _ hrange hmono hadv _ (Nat.le_refl _) hc
    have := delivered_add_idle hal (timeout + 513)
    omega

theorem strchr_append (c : Nat) : ∀ (pre X : List Nat), (∀ b ∈ pre, b ≠ c ∧ b ≠ 0) →
    strchr (pre ++ X) c = (strchr X c).map (· + pre.length) := by
  intro pre
  induction pre with
  | nil => intro X _; simp
  | cons a t ih =>
    intro X h
    have ha := h a (List.mem_cons_self _ _)
    have ih' := ih X (fun b hb => h b (List.mem_cons_of_mem _ hb))
    show strchr (a :: (t ++ X)) c = _
    simp only [strchr, ha.1, ha.2, if_false, ih', Option.map_map, List.length_cons]
    rfl

theorem takeWhile_quote_split (S : List Nat) :
    S.takeWhile (fun b => b != 34) = S ∧ (∀ b ∈ S, b ≠ 34) ∨
    ∃ rest, S = S.takeWhile (fun b => b != 34) ++ 34 :: rest := by
  induction S with
  | nil => exact Or.inl ⟨rfl, fun _ h => absurd h (List.not_mem_nil _)⟩
  | cons a t ih =>
    by_cases ha : a = 34
    · subst ha
      exact Or.inr ⟨t, by simp [List.takeWhile]⟩
    · have hb : (a != 34) = true := by simpa using ha
      rcases ih with ⟨h1, h2⟩ | ⟨rest, h⟩
      · left
        refine ⟨by rw [List.takeWhile_cons, hb]; simp [h1], ?_⟩
        intro b hb'
        rcases List.mem_cons.mp hb' with h | h
        · exact h ▸ ha
        · exact h2 b h
      · right
        refine ⟨rest, ?_⟩
        rw [List.takeWhile_cons, hb]
        simp only [if_true, List.cons_append]
        rw [← h]

theorem parseTopic_core (raw S R : List Nat) (comma1 comma2 ts : Nat)
    (hts : (if raw.getD (comma1 + 1) 0 = 34 then comma1 + 1 + 1 else comma1 + 1) = ts)
    (hd : raw.drop ts = S ++ 44 :: R) (hS : IsField S) (hc2 : comma2 = ts + S.length) :
    parseTopic raw comma1 comma2
      = if 0 < (S.takeWhile (fun b => b != 34)).length ∧
            (S.takeWhile (fun b => b != 34)).length < 64
        then S.takeWhile (fun b => b != 34)
          ++ List.replicate (64 - (S.takeWhile (fun b => b != 34)).length) 0
        else List.replicate 64 0 := by
  have hpre : S.takeWhile (fun b => b != 34) <+: S := List.takeWhile_prefix _
  have hfield : ∀ b ∈ S.takeWhile (fun b => b != 34), b ≠ 34 ∧ b ≠ 0 := by
    intro b hb
    have h1 : (b != 34) = true := List.mem_takeWhile_imp (p := fun b => b != 34) hb
    exact ⟨by simpa using h1, (hS b (hpre.subset hb)).2⟩
  have hnulS : NulFree S := fun b hb => (hS b hb).2
  have hend : (match (strchr (raw.drop ts) 34).map (ts + ·) with
      | some q => if q < comma2 then q else comma2
      | none => comma2) = ts + (S.takeWhile (fun b => b != 34)).length := by
    rw [hd, hc2]
    rcases takeWhile_quote_split S with ⟨h1, h2⟩ | ⟨rest, h⟩
    · rw [h1, strchr_append 34 S (44 :: R) (fun b hb => ⟨h2 b hb, (hS b hb).2⟩)]
      cases strchr (44 :: R) 34 with
      | none => rfl
      | some i =>
        simp only [Option.map_some']
        rw [if_neg (by omega)]
    · have e : S ++ 44 :: R
          = S.takeWhile (fun b => b != 34) ++ 34 :: (rest ++ 44 :: R) := by
        conv_lhs => rw [h]
        simp
      have hl : (S.takeWhile (fun b => b != 34)).length < S.length := by
        conv_rhs => rw [h]
        simp
      rw [e, strchr_skip 34 _ _ hfield]
      simp only [Option.map_some']
      rw [if_pos (by omega)]
  have hi : ((ts + (S.takeWhile (fun b => b != 34)).length : Nat) : Int) - (ts : Int)
      = ((S.takeWhile (fun b => b != 34)).length : Int) := by push_cast; ring
  have key : ∃ e : Nat, e = ts + (S.takeWhile (fun b => b != 34)).length ∧
      parseTopic raw comma1 comma2
        = if 0 < (e : Int) - (ts : Int) ∧ (e : Int) - (ts : Int) < 64 then
            (strncpy (List.replicate 64 0) (raw.drop ts) ((e : Int) - (ts : Int)).toNat).set
              ((e : Int) - (ts : Int)).toNat 0
          else List.replicate 64 0 := by
    cases hs : strchr (raw.drop ts) 34 with
    | none =>
      rw [hs] at hend
      exact ⟨comma2, hend, by simp only [parseTopic, hts, hs, Option.map_none', parsed0]⟩
    | some i =>
      rw [hs] at hend
      simp only [Option.map_some'] at hend
      by_cases hlt : ts + i < comma2
      · rw [if_pos hlt] at hend
        exact ⟨ts + i, hend,
          by simp only [parseTopic, hts, hs, Option.map_some', hlt, if_true, parsed0]⟩
      · rw [if_neg hlt] at hend
        exact ⟨comma2, hend,
          by simp only [parseTopic, hts, hs, Option.map_some', hlt, if_false, parsed0]⟩
  obtain ⟨e, he, hp⟩ := key
  rw [hp, he, hi]
  simp only [Int.toNat_ofNat]
  by_cases hcond : 0 < (S.takeWhile (fun b => b != 34)).length ∧
      (S.takeWhile (fun b => b != 34)).length < 64
  · have hcondI : (0 : Int) < ((S.takeWhile (fun b => b != 34)).length : Int) ∧
        ((S.takeWhile (fun b => b != 34)).length : Int) < 64 := by omega
    rw [if_pos hcond, if_pos hcondI, hd]
    have htake : (cstr (S ++ 44 :: R)).take (S.takeWhile (fun b => b != 34)).length
        = S.takeWhile (fun b => b != 34) := by
      have h1 : cstr (S ++ 44 :: R) = S ++ cstr (44 :: R) := by
        unfold cstr
        rw [List.takeWhile_append_of_pos (fun a ha => by simpa using hnulS a ha)]
      rw [h1, List.take_append_of_le_length hpre.length_le]
      exact (List.prefix_iff_eq_take.mp hpre).symm
    simp only [strncpy, htake, Nat.sub_self, List.replicate_zero, List.append_nil,
      List.drop_replicate]
    obtain ⟨m, hm⟩ : ∃ m, 64 - (S.takeWhile (fun b => b != 34)).length = m + 1 :=
      ⟨63 - (S.takeWhile (fun b => b != 34)).length, by omega⟩
    rw [hm, set_zero_frame]
  · have hcondI : ¬ ((0 : Int) < ((S.takeWhile (fun b => b != 34)).length : Int) ∧
        ((S.takeWhile (fun b => b != 34)).length : Int) < 64) := by omega
    rw [if_neg hcond, if_neg hcondI]

theorem parseTopic_field (raw B R : List Nat) (comma1 : Nat)
    (hraw : raw.drop (comma1 + 1) = B ++ 44 :: R) (hB : IsField B) :
    parseTopic raw comma1 (comma1 + 1 + B.length)
      = if 0 < (topicText B).length ∧ (topicText B).length < 64
        then topicText B ++ List.replicate (64 - (topicText B).length) 0
        else List.replicate 64 0 := by
  cases B with
  | nil =>
    have hq : raw.getD (comma1 + 1) 0 = 44 := getD_of_drop (by simpa using hraw)
    exact parseTopic_core raw [] R comma1 _ (comma1 + 1) (by rw [hq]; rfl) hraw hB rfl
  | cons c B' =>
    have hq : raw.getD (comma1 + 1) 0 = c := getD_of_drop (by simpa using hraw)
    by_cases hc : c = 34
    · subst hc
      have hd : raw.drop (comma1 + 1 + 1) = B' ++ 44 :: R := by
        have := drop_step (a := []) (by simpa using hraw)
        simpa using this
      have hB' : IsField B' := fun b hb => hB b (List.mem_cons_of_mem _ hb)
      have := parseTopic_core raw B' R comma1 (comma1 + 1 + (34 :: B').length)
        (comma1 + 1 + 1) (by rw [hq]; rfl) hd hB' (by simp; omega)
      simpa [topicText] using this
    · have hne : (c :: B').head? ≠ some 34 := by simpa using hc
      have := parseTopic_core raw (c :: B') R comma1 (comma1 + 1 + (c :: B').length)
        (comma1 + 1) (by rw [hq, if_neg hc]) hraw hB rfl
      simpa only [topicText, if_neg hne] using this

theorem atoiDigits_stop : ∀ (A : List Nat) (acc : Nat) (X Y : List Nat),
    atoiDigits acc (A ++ 44 :: X) = atoiDigits acc (A ++ 44 :: Y) := by
  intro A
  induction A with
  | nil => intro acc X Y; simp [atoiDigits, isdigit]
  | cons a t ih =>
    intro acc X Y
    show atoiDigits acc (a :: (t ++ 44 :: X)) = atoiDigits acc (a :: (t ++ 44 :: Y))
    simp only [atoiDigits]
    split
    · exact ih _ X Y
    · rfl

theorem atoi_stop : ∀ (A X Y : List Nat), atoi (A ++ 44 :: X) = atoi (A ++ 44 :: Y) := by
  intro A
  induction A with
  | nil => intro X Y; simp [atoi, isspace, atoiDigits, isdigit]
  | cons a t ih =>
    intro X Y
    show atoi (a :: (t ++ 44 :: X)) = atoi (a :: (t ++ 44 :: Y))
    simp only [atoi]
    split
    · exact ih X Y
    · split
      · rw [atoiDigits_stop t 0 X Y]
      · split
        · rw [atoiDigits_stop t 0 X Y]
        · have := atoiDigits_stop (a :: t) 0 X Y
          simp only [List.cons_append] at this
          rw [this]

theorem atoiDigits_digits : ∀ (C : List Nat) (acc : Nat) (D : List Nat),
    (∀ c ∈ C, isdigit c = true) →
    atoiDigits acc (C ++ 44 :: D) = C.foldl (fun acc c => acc * 10 + (c - 48)) acc := by
  intro C
  induction C with
  | nil => intro acc D _; simp [atoiDigits, isdigit]
  | cons a t ih =>
    intro acc D h
    have ha := h a (List.mem_cons_self _ _)
    show atoiDigits acc (a :: (t ++ 44 :: D)) = _
    simp only [atoiDigits, ha, if_true, List.foldl_cons]
    exact ih _ D (fun c hc => h c (List.mem_cons_of_mem _ hc))

theorem atoi_digits (C D : List Nat) (h : ∀ c ∈ C, isdigit c = true) :
    atoi (C ++ 44 :: D) = (digitsValue C : Int) := by
  cases C with
  | nil => simp [atoi, isspace, atoiDigits, isdigit, digitsValue]
  | cons a t =>
    have ha := h a (List.mem_cons_self _ _)
    have hr : 48 ≤ a ∧ a ≤ 57 := by simpa [isdigit] using ha
    have hsp : isspace a = false := by simp [isspace]; omega
    have h45 : a ≠ 45 := by omega
    have h43 : a ≠ 43 := by omega
    have hA := atoiDigits_digits (a :: t) 0 D h
    simp only [List.cons_append] at hA
    show atoi (a :: (t ++ 44 :: D)) = _
    simp only [atoi, hsp, h45, h43, if_false, Bool.false_eq_true, hA, digitsValue]

theorem parse_record (raw A B C D : List Nat)
    (hmark : strncmpEq raw (bytes "+MQTTSUBRECV:") 13 = true ∨
      (strstr raw (bytes "+MQTTSUBRECV:")).isSome = true)
    (h0 : raw.drop 13 = A ++ 44 :: (B ++ 44 :: (C ++ 44 :: D)))
    (hA : IsField A) (hB : IsField B) (hC : IsField C) :
    MQTT_ParseReceivedMessage raw
      = { link_id := (atoi (A ++ [44]) % 256).toNat,
          topic := if 0 < (topicText B).length ∧ (topicText B).length < 64
            then topicText B ++ List.replicate (64 - (topicText B).length) 0
            else List.replicate 64 0,
          message_length := (atoi (C ++ 44 :: D) % 65536).toNat,
          message := parseMessage D,
          valid := 1 } := by
  rw [parse_layout raw A B C D hmark h0 hA hB hC,
    parseTopic_field raw B (C ++ 44 :: D) (13 + A.length) (drop_step h0) hB,
    atoi_stop A _ []]

theorem parse_record_at_start (raw A B C D : List Nat) (h : IsRecord raw [] A B C D) :
    MQTT_ParseReceivedMessage raw
      = { link_id := (atoi (A ++ [44]) % 256).toNat,
          topic := if 0 < (topicText B).length ∧ (topicText B).length < 64
            then topicText B ++ List.replicate (64 - (topicText B).length) 0
            else List.replicate 64 0,
          message_length := (atoi (C ++ 44 :: D) % 65536).toNat,
          message := parseMessage D,
          valid := 1 } := by
  obtain ⟨hraw, hfound, hA, hB, hC⟩ := h
  have h0 : raw.drop 13 = A ++ 44 :: (B ++ 44 :: (C ++ 44 :: D)) := by
    have hm : (bytes "+MQTTSUBRECV:").length = 13 := by decide
    rw [hraw, List.nil_append, ← hm, List.drop_left]
  exact parse_record raw A B C D (Or.inr (by rw [hfound]; rfl)) h0 hA hB hC

theorem topicText_nulFree (B : List Nat) (hB : IsField B) : NulFree (topicText B) := by
  intro b hb
  unfold topicText at hb
  have h1 := (List.takeWhile_prefix _).subset hb
  split at h1
  · exact (hB b (List.mem_of_mem_tail h1)).2
  · exact (hB b h1).2

/-- The topic capacity rule for a record whose marker opens the buffer: a topic text of 64
bytes or more is not copied, one of 1 to 63 bytes is copied exactly and NUL-terminated. -/
theorem topic_capacity_at_start (raw A B C D : List Nat) (hrec : IsRecord raw [] A B C D) :
    (MQTT_ParseReceivedMessage raw).valid = 1 ∧
    (64 ≤ (topicText B).length →
      (MQTT_ParseReceivedMessage raw).topic = List.replicate 64 0 ∧
      cstr (MQTT_ParseReceivedMessage raw).topic = []) ∧
    (1 ≤ (topicText B).length → (topicText B).length ≤ 63 →
      cstr (MQTT_ParseReceivedMessage raw).topic = topicText B ∧
      (MQTT_ParseReceivedMessage raw).topic[(topicText B).length]? = some 0 ∧
      (MQTT_ParseReceivedMessage raw).topic.length = 64) := by
  have hnul := topicText_nulFree B hrec.2.2.2.1
  rw [parse_record_at_start raw A B C D hrec]
  refine ⟨rfl, ?_, ?_⟩
  · intro h64
    have : ¬ (0 < (topicText B).length ∧ (topicText B).length < 64) := by omega
    rw [if_neg this]
    exact ⟨rfl, cstr_zeros 64⟩
  · intro h1 h63
    have : 0 < (topicText B).length ∧ (topicText B).length < 64 := by omega
    rw [if_pos this]
    refine ⟨cstr_append_zeros hnul _, ?_, ?_⟩
    · rw [List.getElem?_append_right (Nat.le_refl _), Nat.sub_self, List.getElem?_replicate]
      simp; omega
    · simp; omega

/-- The declared length and the payload copy for two records whose marker opens the buffer
and that differ only in the digits between the second and third comma. -/
theorem declared_length_unused_at_start (raw1 raw2 A B C1 C2 D : List Nat)
    (h1 : IsRecord raw1 [] A B C1 D) (h2 : IsRecord raw2 [] A B C2 D)
    (hd1 : ∀ c ∈ C1, isdigit c = true) (hd2 : ∀ c ∈ C2, isdigit c = true)
    (hv1 : digitsValue C1 < 65536) (hv2 : digitsValue C2 < 65536) :
    (MQTT_ParseReceivedMessage raw1).link_id = (MQTT_ParseReceivedMessage raw2).link_id ∧
    (MQTT_ParseReceivedMessage raw1).topic = (MQTT_ParseReceivedMessage raw2).topic ∧
    (MQTT_ParseReceivedMessage raw1).message = (MQTT_ParseReceivedMessage raw2).message ∧
    (MQTT_ParseReceivedMessage raw1).valid = (MQTT_ParseReceivedMessage raw2).valid ∧
    (MQTT_ParseReceivedMessage raw1).message_length = digitsValue C1 ∧
    (MQTT_ParseReceivedMessage raw2).message_length = digitsValue C2 := by
  rw [parse_record_at_start raw1 A B C1 D h1, parse_record_at_start raw2 A B C2 D h2,
    atoi_digits C1 D hd1, atoi_digits C2 D hd2]
  refine ⟨rfl, rfl, rfl, rfl, ?_, ?_⟩
  · show ((digitsValue C1 : Int) % 65536).toNat = digitsValue C1
    omega
  · show ((digitsValue C2 : Int) % 65536).toNat = digitsValue C2
    omega

/-! ## Lemmas on the deadline test -/

theorem u32sub_eq_emod (a b : Nat) :
    (u32sub a b : Int) = ((a : Int) - (b : Int)) % 4294967296 := by
  unfold u32sub
  omega

theorem u32sub_elapsed (S E : Nat) (hE : E < 4294967296) :
    u32sub ((S + E) % 4294967296) (S % 4294967296) = E := by
  unfold u32sub
  omega

theorem loopStep_deadline_iff (hal : Hal) (start timeout : Nat) (st : LoopState) :
    (∃ st', loopStep hal start timeout st = LoopStep.exit LoopExit.deadline st') ↔
      ¬ u32sub (hal.tick st.ticks) start < timeout := by
  constructor
  · rintro ⟨st', h⟩ hc
    simp only [loopStep, hc, if_true] at h
    split at h
    · cases h
    · split at h
      · split at h
        · cases h
        · split at h
          · cases h
          · split at h
            · cases h
            · cases h
      · cases h
  · intro hc
    exact ⟨{ st with ticks := st.ticks + 1 }, by simp only [loopStep, hc, if_false]⟩

/-! ## Claims -/

/-- C1. For every non-empty NUL-free response string `r`, `ESP8266_ParseResponse` equals the
first-match-wins reference classifier of the specification. -/
theorem C1_parseResponse_refines_reference (r : List Nat) (cmd : Option (List Nat))
    (_hne : r ≠ []) (hnul : NulFree r) :
    ESP8266_ParseResponse (some r) cmd = classifyReference r := by
  have hc : cstr r = r := cstr_of_nulFree hnul
  simp only [ESP8266_ParseResponse, classifyReference,
    strstr_isSome_iff r "OK" (by decide), strstr_isSome_iff r "ERROR" (by decide),
    strstr_isSome_iff r "FAIL" (by decide), strstr_isSome_iff r "+CWJAP:1" (by decide),
    strstr_isSome_iff r "+CWJAP:2" (by decide), strstr_isSome_iff r "+CWJAP:3" (by decide),
    strstr_isSome_iff r "+CWJAP:4" (by decide), hc]

/-- Witness of C1 at the reply `"\r\n+CWJAP:3\r\n"`. -/
theorem C1_parseResponse_refines_reference_witness :
    bytes "\r\n+CWJAP:3\r\n" ≠ [] ∧ NulFree (bytes "\r\n+CWJAP:3\r\n") ∧
    ESP8266_ParseResponse (some (bytes "\r\n+CWJAP:3\r\n")) none
      = classifyReference (bytes "\r\n+CWJAP:3\r\n") :=
  ⟨by decide, by decide,
    C1_parseResponse_refines_reference (bytes "\r\n+CWJAP:3\r\n") none (by decide) (by decide)⟩

/-- C2. For every sequence of read results and tick values, every state of the receive loop
of `ESP8266_SendAndWaitResponse` keeps `rx_index ≤ 511` and `rx_buffer[rx_index] = 0`, and the
loop is never left by a store outside the 512 bytes of `rx_buffer`; the call never faults;
and a byte that arrives when `rx_index = 511` is not stored (the buffer is returned
unchanged) and makes the call return `ESP8266_ERROR_BUFFER_OVERFLOW`. -/
theorem C2_rx_buffer_invariant (hal : Hal) (rx0 : List Nat) (timeout : Nat) :
    (∀ k, StepInv (loopIter hal (hal.tick 0) timeout (loopInit rx0) k)) ∧
    (∀ cmd fuel, ESP8266_SendAndWaitResponse hal rx0 cmd timeout fuel
      ≠ Except.error Stuck.outOfBounds) ∧
    (∀ cmd k st b fuel, hal.transmitOk = true →
      loopIter hal (hal.tick 0) timeout (loopInit rx0) k = LoopStep.next st →
      st.rx_index = 511 → u32sub (hal.tick st.ticks) (hal.tick 0) < timeout →
      hal.receive st.reads = some b → k < fuel →
      ESP8266_SendAndWaitResponse hal rx0 (some cmd) timeout fuel
        = Except.ok
            { response := { status := ESP8266_ERROR_BUFFER_OVERFLOW,
                            data := List.replicate 256 0, data_length := 0 },
              rx_buffer := st.rx_buffer, transmits := 1, ticks := st.ticks + 1,
              reads := st.reads + 1 }) := by
  refine ⟨loopIter_inv hal _ timeout rx0, ?_, ?_⟩
  · intro cmd fuel
    have hinv := loopIter_inv hal (hal.tick 0) timeout rx0 fuel
    unfold loopInit at hinv
    cases cmd with
    | none => simp [ESP8266_SendAndWaitResponse]
    | some c =>
      simp only [ESP8266_SendAndWaitResponse]
      split
      · split
        · simp
        · rename_i hk
          rw [hk] at hinv
          exact absurd rfl hinv.1
        · simp
        · simp
      · simp
  · intro cmd k st b fuel htx hk hidx hdead hrecv hfuel
    have hk1 : loopIter hal (hal.tick 0) timeout (loopInit rx0) (k + 1)
        = LoopStep.exit LoopExit.overflow
            { st with ticks := st.ticks + 1, reads := st.reads + 1 } := by
      simp only [loopIter, hk]
      exact loopStep_overflow hal _ timeout st b hidx hdead hrecv
    have hf := loopIter_exit_stable hal _ timeout _ hk1 fuel hfuel
    unfold loopInit at hf
    simp only [ESP8266_SendAndWaitResponse, htx, if_true, hf, response0]

/-- Witness of C2: a reply of 512 bytes `A` without terminator; the 512th byte is not
stored and the call returns `ESP8266_ERROR_BUFFER_OVERFLOW`, the buffer holding 511 bytes
and the NUL. -/
theorem C2_rx_buffer_invariant_witness :
    ESP8266_SendAndWaitResponse (halOfStream (List.replicate 512 65)) (List.replicate 512 0)
        (some (bytes "AT\r\n")) 1000 512
      = Except.ok
          { response := { status := ESP8266_ERROR_BUFFER_OVERFLOW,
                          data := List.replicate 256 0, data_length := 0 },
            rx_buffer := List.replicate 511 65 ++ List.replicate 1 0,
            transmits := 1, ticks := 513, reads := 512 } := by
  have hd : delivered (halOfStream (List.replicate 512 65)) 511 = List.replicate 511 65 := by
    rw [delivered_halOfStream _ (fun b hb => by rw [List.eq_of_mem_replicate hb]; decide),
      List.take_replicate]
    rfl
  have hk := loopIter_frame (halOfStream (List.replicate 512 65)) 0 1000
    (List.replicate 512 0) 511 (fun _ _ => show u32sub 0 0 < 1000 by decide)
    (by rw [hd, List.length_replicate])
    (by rw [hd]; intro b hb; rw [List.eq_of_mem_replicate hb]; decide)
    (by rw [hd]; intro h
        have := List.eq_of_mem_replicate (cr_mem_of_hasTerminator h)
        omega)
  rw [hd] at hk
  have h := (C2_rx_buffer_invariant (halOfStream (List.replicate 512 65))
    (List.replicate 512 0) 1000).2.2 (bytes "AT\r\n") 511
    (frameState (List.replicate 511 65) 511) 65 512 rfl hk
    (List.length_replicate _ _) (by decide)
    (by show (List.replicate 512 65)[511]? = some 65
        rw [List.getElem?_replicate]; rfl) (by decide)
  rw [h]
  simp only [frameState, List.length_replicate, ESP8266_RX_BUFFER_SIZE, Nat.reduceSub,
    Nat.reduceAdd]

/-- C3. For a non-null command whose write succeeds and a NUL-free reply stream `s`: if
`n ≤ 511` is the length of the shortest prefix of `s` that contains a terminator, and that
prefix is what the first `k + 1` reads deliver, the last of them delivering its last byte,
all before the deadline, then the call returns after exactly those `k + 1` reads, the
accumulated frame is that prefix, and `data_length = n`. -/
theorem C3_terminator_stops_reading (hal : Hal) (rx0 cmd s : List Nat)
    (timeout n k b fuel : Nat)
    (htx : hal.transmitOk = true) (hs : NulFree s)
    (hn : n ≤ 511) (hns : n ≤ s.length)
    (hterm : HasTerminator (s.take n)) (hmin : ∀ m < n, ¬ HasTerminator (s.take m))
    (hrecv : hal.receive k = some b) (hdel : delivered hal (k + 1) = s.take n)
    (hdead : ∀ j ≤ k, u32sub (hal.tick (j + 1)) (hal.tick 0) < timeout)
    (hfuel : k < fuel) :
    ESP8266_SendAndWaitResponse hal rx0 (some cmd) timeout fuel
      = Except.ok
          { response :=
              { status := classifyReference (s.take n),
                data := if n < 256 then s.take n ++ List.replicate (256 - n) 0
                        else List.replicate 256 0,
                data_length := n },
            rx_buffer := s.take n ++ List.replicate (512 - n) 0,
            transmits := 1, ticks := k + 2, reads := k + 1 } := by
  have hlenn : (s.take n).length = n := by simp [hns]
  have hd := delivered_succ hal k
  rw [hrecv, hdel] at hd
  simp only at hd
  have hnul : NulFree (s.take n) := fun x hx => hs x (List.mem_of_mem_take hx)
  have hlenk : (delivered hal k).length + 1 = n := by
    have := congrArg List.length hd
    simp only [List.length_append, List.length_singleton, hlenn] at this
    omega
  have hpre : delivered hal k = s.take (delivered hal k).length := by
    have h1 : delivered hal k <+: s.take n := by rw [hd]; exact List.prefix_append _ _
    have h2 : delivered hal k <+: s := h1.trans (List.take_prefix n s)
    exact List.prefix_iff_eq_take.mp h2
  have hterm' : ¬ HasTerminator (delivered hal k) := by
    rw [hpre]; exact hmin _ (by omega)
  have hnul' : NulFree (delivered hal k) := by
    intro x hx; exact hnul x (by rw [hd]; exact List.mem_append_left _ hx)
  have hk := loopIter_frame hal (hal.tick 0) timeout rx0 k
    (fun j hj => hdead j (Nat.le_of_lt hj)) (by omega) hnul' hterm'
  have hk1 : loopIter hal (hal.tick 0) timeout (loopInit rx0) (k + 1)
      = LoopStep.exit LoopExit.terminator (frameState (s.take n) (k + 1)) := by
    simp only [loopIter, hk]
    rw [step_byte hal _ timeout _ k b (hdead k (Nat.le_refl k)) hrecv (by omega)
      (by rw [← hd]; exact hnul), ← hd, if_pos hterm]
  have hf := loopIter_exit_stable hal _ timeout _ hk1 fuel hfuel
  rw [sendAndWait_of_exit hal rx0 cmd timeout fuel _ _ htx hf (Or.inr rfl)]
  simp only [frameState, hlenn, ESP8266_RX_BUFFER_SIZE, parseResponse_frame hnul]
  by_cases h256 : n < 256
  · have := strcpy_frame hnul (by omega) (512 - n)
    rw [hlenn] at this
    simp only [h256, if_true, this]
  · simp only [h256, if_false]

set_option maxRecDepth 100000 in
/-- Witness of C3: the reply `AT\r\n\r\nOK\r\n` followed by the start of a push
notification; the ten bytes up to the terminator are read and nothing after them. -/
theorem C3_terminator_stops_reading_witness :
    ESP8266_SendAndWaitResponse (halOfStream (bytes "AT\r\n\r\nOK\r\n+MQTTSUBRECV:0"))
        (List.replicate 512 0) (some (bytes "AT\r\n")) 1000 50
      = Except.ok
          { response :=
              { status := ESP8266_OK,
                data := bytes "AT\r\n\r\nOK\r\n" ++ List.replicate (256 - 10) 0,
                data_length := 10 },
            rx_buffer := bytes "AT\r\n\r\nOK\r\n" ++ List.replicate (512 - 10) 0,
            transmits := 1, ticks := 11, reads := 10 } :=
  C3_terminator_stops_reading (halOfStream (bytes "AT\r\n\r\nOK\r\n+MQTTSUBRECV:0"))
    (List.replicate 512 0) (bytes "AT\r\n") (bytes "AT\r\n\r\nOK\r\n+MQTTSUBRECV:0")
    1000 10 9 10 50 rfl (by decide) (by decide) (by decide) (by decide) (by decide)
    (by decide) (by decide) (by decide) (by decide)

/-- C4. Round trip on a well-formed notification at offset 0: for every link id up to 255,
every topic of at most 63 bytes without NUL, quote or comma, every declared length up to
65535 and every NUL-free payload of at most 253 bytes, `MQTT_ParseReceivedMessage` returns
`valid = 1`, the link id, the topic, the declared length and the payload without its
trailing CR LF. -/
theorem C4_notification_round_trip (id len : Nat) (topic payload : List Nat)
    (hid : id ≤ 255) (htlen : topic.length ≤ 63)
    (htopic : ∀ b ∈ topic, b ≠ 0 ∧ b ≠ 34 ∧ b ≠ 44)
    (hlen : len ≤ 65535) (hpay : NulFree payload) (hplen : payload.length ≤ 253) :
    (MQTT_ParseReceivedMessage (notification id topic len payload)).valid = 1 ∧
    (MQTT_ParseReceivedMessage (notification id topic len payload)).link_id = id ∧
    cstr (MQTT_ParseReceivedMessage (notification id topic len payload)).topic = topic ∧
    (MQTT_ParseReceivedMessage (notification id topic len payload)).message_length = len ∧
    cstr (MQTT_ParseReceivedMessage (notification id topic len payload)).message = payload := by
  have hdig : ∀ n, ∀ b ∈ decimal n, b ≠ 44 ∧ b ≠ 0 := by
    intro n b hb
    have := decimalAux_digits n n b hb
    omega
  have hB : ∀ b ∈ 34 :: (topic ++ [34]), b ≠ 44 ∧ b ≠ 0 := by
    intro b hb
    rcases List.mem_cons.mp hb with h | h
    · omega
    · rcases List.mem_append.mp h with h | h
      · exact ⟨(htopic b h).2.2, (htopic b h).1⟩
      · simp at h; omega
  have hraw : (notification id topic len payload).drop 13
      = decimal id ++ 44 :: ((34 :: (topic ++ [34])) ++ 44 ::
          (decimal len ++ 44 :: (payload ++ [13, 10]))) := by
    have hm : (bytes "+MQTTSUBRECV:").length = 13 := by decide
    rw [notification, ← hm, List.drop_left]
    simp
  have hmark : strncmpEq (notification id topic len payload) (bytes "+MQTTSUBRECV:") 13
      = true := by
    have := strncmpEq_prefix (bytes "+MQTTSUBRECV:")
      (decimal id ++ 44 :: 34 :: (topic ++ 34 :: 44 ::
        (decimal len ++ 44 :: (payload ++ [13, 10])))) (by decide)
    exact this
  have hT : parseTopic (notification id topic len payload) (13 + (decimal id).length)
      (13 + (decimal id).length + 1 + (34 :: (topic ++ [34])).length)
      = topic ++ List.replicate (64 - topic.length) 0 := by
    apply parseTopic_quoted _ topic (44 :: (decimal len ++ 44 :: (payload ++ [13, 10])))
    · have := drop_step hraw
      simpa using this
    · exact fun b hb => ⟨(htopic b hb).2.1, (htopic b hb).1⟩
    · exact htlen
    · simp; omega
  rw [parse_layout _ _ _ _ _ (Or.inl hmark) hraw (hdig id) hB (hdig len), hT,
    atoi_decimal id 44 _ (by decide), atoi_decimal len 44 _ (by decide),
    parseMessage_crlf payload hpay hplen]
  refine ⟨rfl, ?_, ?_, ?_, ?_⟩
  · show ((id : Int) % 256).toNat = id
    omega
  · exact cstr_append_zeros (fun b hb => (htopic b hb).1) _
  · show ((len : Int) % 65536).toNat = len
    omega
  · exact cstr_append_zeros hpay _

/-- Witness of C4 at the notification of the specification's example, without the stray
byte. -/
theorem C4_notification_round_trip_witness :
    (MQTT_ParseReceivedMessage (bytes "+MQTTSUBRECV:0,\"home/temp\",5,23.45\r\n")).valid = 1 ∧
    (MQTT_ParseReceivedMessage (bytes "+MQTTSUBRECV:0,\"home/temp\",5,23.45\r\n")).link_id = 0 ∧
    cstr (MQTT_ParseReceivedMessage (bytes "+MQTTSUBRECV:0,\"home/temp\",5,23.45\r\n")).topic
      = bytes "home/temp" ∧
    (MQTT_ParseReceivedMessage
      (bytes "+MQTTSUBRECV:0,\"home/temp\",5,23.45\r\n")).message_length = 5 ∧
    cstr (MQTT_ParseReceivedMessage (bytes "+MQTTSUBRECV:0,\"home/temp\",5,23.45\r\n")).message
      = bytes "23.45" :=
  C4_notification_round_trip 0 5 (bytes "home/temp") (bytes "23.45") (by decide) (by decide)
    (by decide) (by decide) (by decide) (by decide)

/-- C5 (evaluation at the failing inputs). With the marker at offset 0 the link id `1` is
returned; behind the single stray byte `A` the same record gives link id `0`, because the
fields are read from `raw_message + 13` and not from the marker found. The record of the
specification, whose link id is `0`, parses to the expected fields. Behind the reply to a
subscribe command, the same record is returned with the topic and the message taken from the
wrong places. -/
theorem C5_stray_byte_changes_link_id :
    (MQTT_ParseReceivedMessage (bytes "+MQTTSUBRECV:1,\"home/temp\",5,23.45\r\n")).link_id = 1 ∧
    (MQTT_ParseReceivedMessage (bytes "A+MQTTSUBRECV:1,\"home/temp\",5,23.45\r\n")).link_id = 0 ∧
    (MQTT_ParseReceivedMessage (bytes "A+MQTTSUBRECV:1,\"home/temp\",5,23.45\r\n")).valid = 1 ∧
    (MQTT_ParseReceivedMessage (bytes "A+MQTTSUBRECV:0,\"home/temp\",5,23.45\r\n")).link_id = 0 ∧
    cstr (MQTT_ParseReceivedMessage (bytes "A+MQTTSUBRECV:0,\"home/temp\",5,23.45\r\n")).topic
      = bytes "home/temp" ∧
    (MQTT_ParseReceivedMessage
      (bytes "A+MQTTSUBRECV:0,\"home/temp\",5,23.45\r\n")).message_length = 5 ∧
    cstr (MQTT_ParseReceivedMessage (bytes "A+MQTTSUBRECV:0,\"home/temp\",5,23.45\r\n")).message
      = bytes "23.45" ∧
    (MQTT_ParseReceivedMessage (bytes "A+MQTTSUBRECV:0,\"home/temp\",5,23.45\r\n")).valid = 1 ∧
    ¬ Contains (bytes "AT+MQTTSUB=0,\"home/temp\",1\r\nOK\r\n") "+MQTTSUBRECV:" ∧
    cstr (MQTT_ParseReceivedMessage (bytes
      "AT+MQTTSUB=0,\"home/temp\",1\r\nOK\r\n+MQTTSUBRECV:0,\"home/temp\",5,23.45\r\n")).topic
      = bytes "1\r\nOK\r\n+MQTTSUBRECV:0" ∧
    (MQTT_ParseReceivedMessage (bytes
      "AT+MQTTSUB=0,\"home/temp\",1\r\nOK\r\n+MQTTSUBRECV:0,\"home/temp\",5,23.45\r\n")).message_length
      = 0 ∧
    cstr (MQTT_ParseReceivedMessage (bytes
      "AT+MQTTSUB=0,\"home/temp\",1\r\nOK\r\n+MQTTSUBRECV:0,\"home/temp\",5,23.45\r\n")).message
      = bytes "5,23.45" := by
  decide

/-- C6 (as stated, refuted). The empty byte sequence is classified as
`ESP8266_ERROR_TIMEOUT`, not as `ESP8266_ERROR_NO_RESPONSE`. -/
theorem C6_empty_response_counterexample :
    ESP8266_ParseResponse (some []) none = ESP8266_ERROR_TIMEOUT ∧
    ESP8266_ParseResponse (some []) none ≠ ESP8266_ERROR_NO_RESPONSE := by
  decide

/-- C6 (amended). `ESP8266_ParseResponse` returns `ESP8266_ERROR_NO_RESPONSE` when the
response is absent (NULL); on the empty byte sequence, with or without its terminating NUL
spelled out, it returns `ESP8266_ERROR_TIMEOUT`. -/
theorem C6_null_and_empty_response (cmd : Option (List Nat)) :
    ESP8266_ParseResponse none cmd = ESP8266_ERROR_NO_RESPONSE ∧
    ESP8266_ParseResponse (some []) cmd = ESP8266_ERROR_TIMEOUT ∧
    ESP8266_ParseResponse (some [0]) cmd = ESP8266_ERROR_TIMEOUT := by
  refine ⟨rfl, ?_, ?_⟩ <;> simp only [ESP8266_ParseResponse] <;> decide

/-- C7. For a non-null command whose write succeeds and every deadline: if the `k` reads
attempted before the deadline all deliver nothing and the deadline test fails at the next
evaluation, the call returns `ESP8266_ERROR_TIMEOUT` with `data_length = 0` and empty data
(given fuel for the `k + 1` evaluations of the loop condition). -/
theorem C7_no_bytes_timeout (hal : Hal) (rx0 cmd : List Nat) (timeout k fuel : Nat)
    (htx : hal.transmitOk = true)
    (hidle : ∀ j < k, u32sub (hal.tick (j + 1)) (hal.tick 0) < timeout ∧ hal.receive j = none)
    (hdead : ¬ u32sub (hal.tick (k + 1)) (hal.tick 0) < timeout)
    (hfuel : k < fuel) :
    ESP8266_SendAndWaitResponse hal rx0 (some cmd) timeout fuel
      = Except.ok
          { response := { status := ESP8266_ERROR_TIMEOUT, data := List.replicate 256 0,
                          data_length := 0 },
            rx_buffer := List.replicate 512 0, transmits := 1, ticks := k + 2, reads := k } := by
  have hnil : delivered hal k = [] := delivered_eq_nil hal k (fun j hj => (hidle j hj).2)
  have hk := loopIter_frame hal (hal.tick 0) timeout rx0 k (fun j hj => (hidle j hj).1)
    (by simp [hnil]) (by simp [hnil, NulFree]) (by rw [hnil]; decide)
  rw [hnil] at hk
  have hk1 : loopIter hal (hal.tick 0) timeout (loopInit rx0) (k + 1)
      = LoopStep.exit LoopExit.deadline { frameState [] k with ticks := k + 2 } := by
    simp only [loopIter, hk]
    exact step_deadline hal _ timeout [] k hdead
  have hf := loopIter_exit_stable hal _ timeout _ hk1 fuel hfuel
  rw [sendAndWait_of_exit hal rx0 cmd timeout fuel _ _ htx hf (Or.inl rfl)]
  have hp : ESP8266_ParseResponse (some (List.replicate 512 0)) (some cmd)
      = ESP8266_ERROR_TIMEOUT := by
    simp only [ESP8266_ParseResponse, strstr, cstr_zeros]
    decide
  simp only [frameState, ESP8266_RX_BUFFER_SIZE, List.length_nil, Nat.sub_zero,
    List.nil_append, hp, strcpy_zeros, Nat.zero_lt_succ, if_true, Nat.reduceLT]

/-- Witness of C7: a silent transport whose tick advances by 10 ms per call, against a
deadline of 50 ms: four reads are attempted, then the call returns Timeout with no data. -/
theorem C7_no_bytes_timeout_witness :
    ESP8266_SendAndWaitResponse halSilent (List.replicate 512 0) (some (bytes "AT\r\n")) 50 5
      = Except.ok
          { response := { status := ESP8266_ERROR_TIMEOUT, data := List.replicate 256 0,
                          data_length := 0 },
            rx_buffer := List.replicate 512 0, transmits := 1, ticks := 6, reads := 4 } :=
  C7_no_bytes_timeout halSilent (List.replicate 512 0) (bytes "AT\r\n") 50 4 5 rfl
    (by decide) (by decide) (by decide)

/-- C8 (as stated, refuted). A reply that echoes the join command for the SSID `TOKYO` and
then carries `+CWJAP:2` holds no terminator, yet is classified as success because the echo
contains `OK`; and a reply carrying `+CWJAP:1` before `+CWJAP:2` is classified as a
timeout. -/
theorem C8_wifi_code_counterexample :
    (Contains (bytes "AT+CWJAP=\"TOKYO\",\"pw\"\r\n+CWJAP:2\r\n") "+CWJAP:2" ∧
      ¬ Contains (bytes "AT+CWJAP=\"TOKYO\",\"pw\"\r\n+CWJAP:2\r\n") "\r\nOK\r\n" ∧
      ¬ Contains (bytes "AT+CWJAP=\"TOKYO\",\"pw\"\r\n+CWJAP:2\r\n") "\r\nERROR\r\n" ∧
      ¬ Contains (bytes "AT+CWJAP=\"TOKYO\",\"pw\"\r\n+CWJAP:2\r\n") "\r\nFAIL\r\n" ∧
      ESP8266_ParseResponse (some (bytes "AT+CWJAP=\"TOKYO\",\"pw\"\r\n+CWJAP:2\r\n")) none
        = ESP8266_OK) ∧
    (Contains (bytes "+CWJAP:1\r\n+CWJAP:2\r\n") "+CWJAP:2" ∧
      ¬ Contains (bytes "+CWJAP:1\r\n+CWJAP:2\r\n") "\r\nOK\r\n" ∧
      ¬ Contains (bytes "+CWJAP:1\r\n+CWJAP:2\r\n") "\r\nERROR\r\n" ∧
      ¬ Contains (bytes "+CWJAP:1\r\n+CWJAP:2\r\n") "\r\nFAIL\r\n" ∧
      ESP8266_ParseResponse (some (bytes "+CWJAP:1\r\n+CWJAP:2\r\n")) none
        = ESP8266_ERROR_TIMEOUT) := by
  decide

/-- C8 (amended). For every NUL-free byte sequence that contains none of the bare texts
`OK`, `ERROR`, `FAIL`: it yields Timeout if it contains `+CWJAP:1`; WifiWrongPassword if it
contains `+CWJAP:2` and not `+CWJAP:1`; WifiNotFound if it contains `+CWJAP:3` and neither
of the two before; WifiConnectionFailed if it contains `+CWJAP:4` and none of the three
before. -/
theorem C8_wifi_code_classification (r : List Nat) (cmd : Option (List Nat))
    (hnul : NulFree r) (hok : ¬ Contains r "OK") (herr : ¬ Contains r "ERROR")
    (hfail : ¬ Contains r "FAIL") :
    (Contains r "+CWJAP:1" → ESP8266_ParseResponse (some r) cmd = ESP8266_ERROR_TIMEOUT) ∧
    (¬ Contains r "+CWJAP:1" → Contains r "+CWJAP:2" →
      ESP8266_ParseResponse (some r) cmd = ESP8266_ERROR_WIFI_WRONG_PASSWORD) ∧
    (¬ Contains r "+CWJAP:1" → ¬ Contains r "+CWJAP:2" → Contains r "+CWJAP:3" →
      ESP8266_ParseResponse (some r) cmd = ESP8266_ERROR_WIFI_NOT_FOUND) ∧
    (¬ Contains r "+CWJAP:1" → ¬ Contains r "+CWJAP:2" → ¬ Contains r "+CWJAP:3" →
      Contains r "+CWJAP:4" →
      ESP8266_ParseResponse (some r) cmd = ESP8266_ERROR_WIFI_CONN_FAIL) := by
  have hc : cstr r = r := cstr_of_nulFree hnul
  simp only [ESP8266_ParseResponse,
    strstr_isSome_iff r "OK" (by decide), strstr_isSome_iff r "ERROR" (by decide),
    strstr_isSome_iff r "FAIL" (by decide), strstr_isSome_iff r "+CWJAP:1" (by decide),
    strstr_isSome_iff r "+CWJAP:2" (by decide), strstr_isSome_iff r "+CWJAP:3" (by decide),
    strstr_isSome_iff r "+CWJAP:4" (by decide), hc, if_neg hok, if_neg herr, if_neg hfail]
  refine ⟨fun h1 => ?_, fun h1 h2 => ?_, fun h1 h2 h3 => ?_, fun h1 h2 h3 h4 => ?_⟩
  · rw [if_pos h1]
  · rw [if_neg h1, if_pos h2]
  · rw [if_neg h1, if_neg h2, if_pos h3]
  · rw [if_neg h1, if_neg h2, if_neg h3, if_pos h4]

/-- Witness of C8 (amended) at the reply `"\r\n+CWJAP:2\r\n"`. -/
theorem C8_wifi_code_classification_witness :
    ESP8266_ParseResponse (some (bytes "\r\n+CWJAP:2\r\n")) none
      = ESP8266_ERROR_WIFI_WRONG_PASSWORD :=
  (C8_wifi_code_classification (bytes "\r\n+CWJAP:2\r\n") none (by decide) (by decide)
    (by decide) (by decide)).2.1 (by decide) (by decide)

/-- C9. Whenever the receive loop stops on the `break` (the frame contains a terminator), the
call returns, and its status is `ESP8266_OK` if the frame contains `OK` and
`ESP8266_ERROR_COMMAND` otherwise; it is never Timeout, NoResponse or a WiFi subcode. -/
theorem C9_terminated_frame_outcome (hal : Hal) (rx0 cmd : List Nat) (timeout fuel : Nat)
    (st : LoopState) (htx : hal.transmitOk = true)
    (h : loopIter hal (hal.tick 0) timeout (loopInit rx0) fuel
      = LoopStep.exit LoopExit.terminator st) :
    ∃ r, ESP8266_SendAndWaitResponse hal rx0 (some cmd) timeout fuel = Except.ok r ∧
      r.rx_buffer = st.rx_buffer ∧
      r.response.status
        = (if Contains (cstr st.rx_buffer) "OK" then ESP8266_OK else ESP8266_ERROR_COMMAND) ∧
      r.response.status ≠ ESP8266_ERROR_TIMEOUT ∧
      r.response.status ≠ ESP8266_ERROR_NO_RESPONSE ∧
      r.response.status ≠ ESP8266_ERROR_WIFI_WRONG_PASSWORD ∧
      r.response.status ≠ ESP8266_ERROR_WIFI_NOT_FOUND ∧
      r.response.status ≠ ESP8266_ERROR_WIFI_CONN_FAIL ∧
      r.response.status ≠ ESP8266_ERROR_WIFI_ALREADY_CONNECTED := by
  have hc := (frameComplete_iff _).mp (loopIter_terminator hal _ timeout _ fuel st h)
  refine ⟨_, sendAndWait_of_exit hal rx0 cmd timeout fuel _ st htx h (Or.inr rfl), rfl, ?_⟩
  simp only [parseResponse_of_hasTerminator st.rx_buffer (some cmd) hc]
  by_cases h1 : Contains (cstr st.rx_buffer) "OK" <;> simp [h1]

set_option maxRecDepth 100000 in
/-- Witness of C9: the join command answered by `\r\n+CWJAP:2\r\n\r\nFAIL\r\n` gives
`ESP8266_ERROR_COMMAND`. -/
theorem C9_terminated_frame_outcome_witness :
    ∃ r, ESP8266_SendAndWaitResponse (halOfStream (bytes "\r\n+CWJAP:2\r\n\r\nFAIL\r\n"))
        (List.replicate 512 0) (some (bytes "AT+CWJAP=\"net\",\"wrong\"\r\n")) 15000 20
        = Except.ok r ∧
      r.response.status = ESP8266_ERROR_COMMAND := by
  obtain ⟨r, h1, _, h3, _⟩ := C9_terminated_frame_outcome
    (halOfStream (bytes "\r\n+CWJAP:2\r\n\r\nFAIL\r\n")) (List.replicate 512 0)
    (bytes "AT+CWJAP=\"net\",\"wrong\"\r\n") 15000 20
    (frameState (bytes "\r\n+CWJAP:2\r\n\r\nFAIL\r\n") 20) rfl (by decide)
  refine ⟨r, h1, ?_⟩
  rw [h3]
  decide

/-- C10 (evaluation at the failing input). The buffer holds the reply to a publish command
followed by the marker and the text `0`: no comma follows the marker, yet the record is
reported valid, with fields taken from the text in front of the marker, because the commas
are counted from `raw_message + 13`. -/
theorem C10_commas_before_marker_counted :
    strstr (bytes "AT+MQTTPUB=0,\"t\",\"m\",0,0\r\nOK\r\n+MQTTSUBRECV:0") (bytes "+MQTTSUBRECV:")
      = some 30 ∧
    strchr ((bytes "AT+MQTTPUB=0,\"t\",\"m\",0,0\r\nOK\r\n+MQTTSUBRECV:0").drop (30 + 13)) 44
      = none ∧
    (MQTT_ParseReceivedMessage
      (bytes "AT+MQTTPUB=0,\"t\",\"m\",0,0\r\nOK\r\n+MQTTSUBRECV:0")).valid = 1 ∧
    cstr (MQTT_ParseReceivedMessage
      (bytes "AT+MQTTPUB=0,\"t\",\"m\",0,0\r\nOK\r\n+MQTTSUBRECV:0")).topic = bytes "m" ∧
    cstr (MQTT_ParseReceivedMessage
      (bytes "AT+MQTTPUB=0,\"t\",\"m\",0,0\r\nOK\r\n+MQTTSUBRECV:0")).message
      = bytes "0\r\nOK\r\n+MQTTSUBRECV:0" := by
  decide

/-- C11 (evaluation at the failing inputs). The payload `abc\rX` does not end in a line feed,
yet the message returned is `abc`: the test of the byte at `msg_len - 2` does not depend on
a line feed having been removed. Likewise the payload `\rX` gives the empty message. A
payload without carriage return in that place is returned unchanged, and a trailing CR LF or
LF is removed. -/
theorem C11_cr_without_lf_cuts_payload :
    cstr (MQTT_ParseReceivedMessage (bytes "+MQTTSUBRECV:0,\"t\",5,abc\rX")).message
      = bytes "abc" ∧
    cstr (MQTT_ParseReceivedMessage (bytes "+MQTTSUBRECV:0,\"t\",2,\rX")).message = [] ∧
    cstr (MQTT_ParseReceivedMessage (bytes "+MQTTSUBRECV:0,\"t\",5,abcXY")).message
      = bytes "abcXY" ∧
    cstr (MQTT_ParseReceivedMessage (bytes "+MQTTSUBRECV:0,\"t\",5,abc\r\n")).message
      = bytes "abc" ∧
    cstr (MQTT_ParseReceivedMessage (bytes "+MQTTSUBRECV:0,\"t\",4,abc\n")).message
      = bytes "abc" := by
  decide

/-- C12 (as stated, refuted). A reply of 256 bytes `A` that ends at the deadline: the frame
accumulated in `rx_buffer` has 256 bytes and `data_length = 256`, but the returned `data` is
empty. -/
theorem C12_long_frame_counterexample :
    ESP8266_SendAndWaitResponse (halTicking (List.replicate 256 65)) (List.replicate 512 0)
        (some (bytes "AT+CWLAP\r\n")) 257 300
      = Except.ok
          { response := { status := ESP8266_ERROR_TIMEOUT, data := List.replicate 256 0,
                          data_length := 256 },
            rx_buffer := List.replicate 256 65 ++ List.replicate 256 0,
            transmits := 1, ticks := 258, reads := 256 } ∧
    (List.replicate 256 65 ++ List.replicate 256 0).take 256 = List.replicate 256 65 ∧
    cstr (List.replicate 256 0) ≠ List.replicate 256 65 := by
  have hd : delivered (halTicking (List.replicate 256 65)) 256 = List.replicate 256 65 := by
    have : ∀ s k, delivered (halTicking s) k = delivered (halOfStream s) k := fun _ _ => rfl
    rw [this, delivered_halOfStream _ (fun b hb => by rw [List.eq_of_mem_replicate hb]; decide),
      List.take_replicate]
    rfl
  have hnul : NulFree (List.replicate 256 65) := by
    intro b hb; rw [List.eq_of_mem_replicate hb]; decide
  have hcls : classifyReference (List.replicate 256 65) = ESP8266_ERROR_TIMEOUT := by
    have hno : ∀ s : String, (bytes s).head? ≠ some 65 → (bytes s) ≠ [] →
        ¬ Contains (List.replicate 256 65) s := by
      intro s h1 h2 hc
      unfold Contains at hc
      cases hb : bytes s with
      | nil => exact h2 hb
      | cons x t =>
        rw [hb] at hc h1
        have := List.eq_of_mem_replicate (hc.subset (List.mem_cons_self x t))
        subst this
        exact h1 rfl
    simp only [classifyReference, hno "OK" (by decide) (by decide),
      hno "ERROR" (by decide) (by decide), hno "FAIL" (by decide) (by decide),
      hno "+CWJAP:1" (by decide) (by decide), hno "+CWJAP:2" (by decide) (by decide),
      hno "+CWJAP:3" (by decide) (by decide), hno "+CWJAP:4" (by decide) (by decide),
      if_false]
  refine ⟨?_, ?_, ?_⟩
  · rw [sendAndWait_deadline (halTicking (List.replicate 256 65)) (List.replicate 512 0)
      (bytes "AT+CWLAP\r\n") 257 256 300 rfl
      (fun j hj => by show u32sub (j + 1) 0 < 257; unfold u32sub; omega)
      (by rw [hd, List.length_replicate]; decide)
      (by rw [hd]; intro h
          have := List.eq_of_mem_replicate (cr_mem_of_hasTerminator h)
          omega)
      (by show ¬ u32sub 257 0 < 257; decide) (by decide)]
    rw [hd, parseResponse_frame hnul, hcls]
    simp only [List.length_replicate, Nat.lt_irrefl, if_false, Nat.reduceSub]
  · rw [List.take_left' (List.length_replicate _ _)]
  · rw [cstr_zeros]
    intro h
    have := congrArg List.length h
    rw [List.length_replicate] at this
    exact absurd this (by decide)

/-- C12 (amended). For every exchange that ends without BufferOverflow (deadline or
terminator) with a NUL-free accumulated frame `f`: the length of `f` is at most 511,
`data_length` is the length of `f`; the returned data equals `f` when `f` has at most 255
bytes, and when `f` has 256 bytes or more nothing is copied and the returned data is all
NUL. -/
theorem C12_data_and_length (hal : Hal) (rx0 cmd f : List Nat) (timeout fuel : Nat)
    (why : LoopExit) (st : LoopState) (htx : hal.transmitOk = true)
    (h : loopIter hal (hal.tick 0) timeout (loopInit rx0) fuel = LoopStep.exit why st)
    (hwhy : why = LoopExit.deadline ∨ why = LoopExit.terminator)
    (hf : st.rx_buffer.take st.rx_index = f) (hnul : NulFree f) :
    ∃ r, ESP8266_SendAndWaitResponse hal rx0 (some cmd) timeout fuel = Except.ok r ∧
      f.length ≤ 511 ∧
      r.response.data_length = f.length ∧
      (f.length ≤ 255 → cstr r.response.data = f) ∧
      (256 ≤ f.length → r.response.data = List.replicate 256 0) := by
  have hinv : RxInv st := by
    have := loopIter_inv hal (hal.tick 0) timeout rx0 fuel
    rw [h] at this
    exact this.2
  obtain ⟨hc, hl⟩ := cstr_of_rxInv hinv (by rw [hf]; exact hnul)
  rw [hf] at hc hl
  refine ⟨_, sendAndWait_of_exit hal rx0 cmd timeout fuel why st htx h hwhy, ?_, ?_, ?_, ?_⟩
  · have := hinv.2.1
    simp only [ESP8266_RX_BUFFER_SIZE] at this
    omega
  · exact hl.symm
  · intro h255
    have hlt : st.rx_index < 256 := by omega
    simp only [hlt, if_true]
    exact strcpy_short hnul _ hc
  · intro h256
    have hlt : ¬ st.rx_index < 256 := by omega
    simp only [hlt, if_false]

set_option maxRecDepth 100000 in
/-- Witness of C12 (amended): the reply `AT\r\n\r\nOK\r\n` is returned with its length
10. -/
theorem C12_data_and_length_witness :
    ∃ r, ESP8266_SendAndWaitResponse (halOfStream (bytes "AT\r\n\r\nOK\r\n"))
        (List.replicate 512 0) (some (bytes "AT\r\n")) 1000 50 = Except.ok r ∧
      r.response.data_length = 10 ∧ cstr r.response.data = bytes "AT\r\n\r\nOK\r\n" := by
  obtain ⟨r, h1, _, h3, h4, _⟩ := C12_data_and_length
    (halOfStream (bytes "AT\r\n\r\nOK\r\n")) (List.replicate 512 0) (bytes "AT\r\n")
    (bytes "AT\r\n\r\nOK\r\n") 1000 50 LoopExit.terminator
    (frameState (bytes "AT\r\n\r\nOK\r\n") 10) rfl (by decide) (Or.inr rfl) (by decide)
    (by decide)
  exact ⟨r, h1, h3, h4 (by decide)⟩

/-- C13. For a non-null command whose write succeeds: if the first `k` reads deliver 511
bytes without terminator and read `k` delivers a 512th byte, all before the deadline, the call
returns `ESP8266_ERROR_BUFFER_OVERFLOW` right after that read (no further read, status not
classified) with `data_length = 0` and empty data. -/
theorem C13_overflow_immediate (hal : Hal) (rx0 cmd : List Nat) (timeout k b fuel : Nat)
    (htx : hal.transmitOk = true)
    (hlen : (delivered hal k).length = 511)
    (hterm : ¬ HasTerminator (delivered hal k))
    (hrecv : hal.receive k = some b)
    (hdead : ∀ j ≤ k, u32sub (hal.tick (j + 1)) (hal.tick 0) < timeout)
    (hfuel : k < fuel) :
    ESP8266_SendAndWaitResponse hal rx0 (some cmd) timeout fuel
      = Except.ok
          { response := { status := ESP8266_ERROR_BUFFER_OVERFLOW,
                          data := List.replicate 256 0, data_length := 0 },
            rx_buffer := delivered hal k ++ [0], transmits := 1, ticks := k + 2,
            reads := k + 1 } := by
  have hk := loopIter_frame_gen hal (hal.tick 0) timeout rx0 k
    (fun j hj => hdead j (Nat.le_of_lt hj)) (by omega) hterm
  have hk1 : loopIter hal (hal.tick 0) timeout (loopInit rx0) (k + 1)
      = LoopStep.exit LoopExit.overflow (frameState (delivered hal k) (k + 1)) := by
    simp only [loopIter, hk]
    exact step_overflow hal _ timeout _ k b (hdead k (Nat.le_refl k)) hrecv (by omega)
  have hf := loopIter_exit_stable hal _ timeout _ hk1 fuel hfuel
  rw [sendAndWait_overflow hal rx0 cmd timeout fuel _ htx hf]
  simp only [frameState, hlen, ESP8266_RX_BUFFER_SIZE, Nat.reduceSub, List.replicate_one]

/-- Witness of C13: a reply of 600 bytes `A`; the call returns on the 512th. -/
theorem C13_overflow_immediate_witness :
    ESP8266_SendAndWaitResponse (halOfStream (List.replicate 600 65)) (List.replicate 512 0)
        (some (bytes "AT+CWLAP\r\n")) 5000 512
      = Except.ok
          { response := { status := ESP8266_ERROR_BUFFER_OVERFLOW,
                          data := List.replicate 256 0, data_length := 0 },
            rx_buffer := List.replicate 511 65 ++ [0],
            transmits := 1, ticks := 513, reads := 512 } := by
  have hd : delivered (halOfStream (List.replicate 600 65)) 511 = List.replicate 511 65 := by
    rw [delivered_halOfStream _ (fun b hb => by rw [List.eq_of_mem_replicate hb]; decide),
      List.take_replicate]
    rfl
  rw [← hd]
  exact C13_overflow_immediate (halOfStream (List.replicate 600 65)) (List.replicate 512 0)
    (bytes "AT+CWLAP\r\n") 5000 511 65 512 rfl
    (by rw [hd, List.length_replicate])
    (by rw [hd]; intro h
        have := List.eq_of_mem_replicate (cr_mem_of_hasTerminator h)
        omega)
    (by show (List.replicate 600 65)[511]? = some 65
        rw [List.getElem?_replicate]; rfl)
    (fun _ _ => show u32sub 0 0 < 5000 by decide) (by decide)

/-- C14 (evaluation at the failing input). A record with a quoted topic of 64 bytes `a`,
received behind the reply to a subscribe command: the marker is found at offset 32, yet the
topic returned is the 21 bytes `1\r\nOK\r\n+MQTTSUBRECV:0` of the text in front of the record,
the declared length 5 is returned as 0 and the message is `5,hello`, because the fields are
read from `raw_message + 13`. The same record at the start of the buffer gives the empty
topic, the length 5 and the message `hello`. -/
theorem C14_topic_behind_reply :
    IsRecord (bytes "AT+MQTTSUB=0,\"home/temp\",1\r\nOK\r\n+MQTTSUBRECV:0,\""
        ++ List.replicate 64 97 ++ bytes "\",5,hello\r\n")
      (bytes "AT+MQTTSUB=0,\"home/temp\",1\r\nOK\r\n") (bytes "0")
      (34 :: List.replicate 64 97 ++ [34]) (bytes "5") (bytes "hello\r\n") ∧
    (topicText (34 :: List.replicate 64 97 ++ [34])).length = 64 ∧
    strstr (bytes "AT+MQTTSUB=0,\"home/temp\",1\r\nOK\r\n+MQTTSUBRECV:0,\""
        ++ List.replicate 64 97 ++ bytes "\",5,hello\r\n") (bytes "+MQTTSUBRECV:") = some 32 ∧
    (MQTT_ParseReceivedMessage (bytes "AT+MQTTSUB=0,\"home/temp\",1\r\nOK\r\n+MQTTSUBRECV:0,\""
        ++ List.replicate 64 97 ++ bytes "\",5,hello\r\n")).valid = 1 ∧
    cstr (MQTT_ParseReceivedMessage (bytes "AT+MQTTSUB=0,\"home/temp\",1\r\nOK\r\n+MQTTSUBRECV:0,\""
        ++ List.replicate 64 97 ++ bytes "\",5,hello\r\n")).topic
      = bytes "1\r\nOK\r\n+MQTTSUBRECV:0" ∧
    (MQTT_ParseReceivedMessage (bytes "AT+MQTTSUB=0,\"home/temp\",1\r\nOK\r\n+MQTTSUBRECV:0,\""
        ++ List.replicate 64 97 ++ bytes "\",5,hello\r\n")).message_length = 0 ∧
    cstr (MQTT_ParseReceivedMessage (bytes "AT+MQTTSUB=0,\"home/temp\",1\r\nOK\r\n+MQTTSUBRECV:0,\""
        ++ List.replicate 64 97 ++ bytes "\",5,hello\r\n")).message = bytes "5,hello" ∧
    cstr (MQTT_ParseReceivedMessage
      (bytes "+MQTTSUBRECV:0,\"" ++ List.replicate 64 97 ++ bytes "\",5,hello\r\n")).topic = [] ∧
    (MQTT_ParseReceivedMessage
      (bytes "+MQTTSUBRECV:0,\"" ++ List.replicate 64 97
        ++ bytes "\",5,hello\r\n")).message_length = 5 ∧
    cstr (MQTT_ParseReceivedMessage
      (bytes "+MQTTSUBRECV:0,\"" ++ List.replicate 64 97 ++ bytes "\",5,hello\r\n")).message
      = bytes "hello" := by
  decide

/-- C15. For every buffer that does not contain the marker, `MQTT_ParseReceivedMessage`
returns `valid = 0`; and for every buffer, `valid = 0` implies that link id and declared
length are 0 and that topic and message are empty (all NUL). -/
theorem C15_absent_or_incomplete_is_zero (raw : List Nat) :
    (¬ Contains (cstr raw) "+MQTTSUBRECV:" →
      (MQTT_ParseReceivedMessage raw).valid = 0) ∧
    ((MQTT_ParseReceivedMessage raw).valid = 0 →
      (MQTT_ParseReceivedMessage raw).link_id = 0 ∧
      (MQTT_ParseReceivedMessage raw).message_length = 0 ∧
      (MQTT_ParseReceivedMessage raw).topic = List.replicate 64 0 ∧
      (MQTT_ParseReceivedMessage raw).message = List.replicate 256 0 ∧
      cstr (MQTT_ParseReceivedMessage raw).topic = [] ∧
      cstr (MQTT_ParseReceivedMessage raw).message = []) := by
  refine ⟨fun h => ?_, fun h => ?_⟩
  · rw [parse_of_no_marker raw h]; rfl
  · rw [parse_invalid_is_zero raw h]
    exact ⟨rfl, rfl, rfl, rfl, cstr_zeros 64, cstr_zeros 256⟩

/-- Witness of C15: a buffer without the marker, and a record cut after its topic. -/
theorem C15_absent_or_incomplete_is_zero_witness :
    (MQTT_ParseReceivedMessage (bytes "\r\nOK\r\n")).valid = 0 ∧
    (MQTT_ParseReceivedMessage (bytes "+MQTTSUBRECV:0,\"home/temp\"")).valid = 0 ∧
    (MQTT_ParseReceivedMessage (bytes "+MQTTSUBRECV:0,\"home/temp\"")).link_id = 0 ∧
    cstr (MQTT_ParseReceivedMessage (bytes "+MQTTSUBRECV:0,\"home/temp\"")).topic = [] :=
  ⟨(C15_absent_or_incomplete_is_zero (bytes "\r\nOK\r\n")).1 (by decide),
   by decide,
   ((C15_absent_or_incomplete_is_zero (bytes "+MQTTSUBRECV:0,\"home/temp\"")).2 (by decide)).1,
   ((C15_absent_or_incomplete_is_zero
      (bytes "+MQTTSUBRECV:0,\"home/temp\"")).2 (by decide)).2.2.2.2.1⟩

/-- C16. `ESP8266_SendAndWaitResponse(NULL, t)` and `ESP8266_Send(NULL)` return
`ESP8266_ERROR_INVALID_PARAM` with `data_length = 0`, without any write, tick or read on the
transport, and leave `rx_buffer` unchanged. -/
theorem C16_null_command_rejected (hal : Hal) (rx_buffer : List Nat) (timeout fuel : Nat) :
    ESP8266_SendAndWaitResponse hal rx_buffer none timeout fuel
      = Except.ok
          { response := { status := ESP8266_ERROR_INVALID_PARAM,
                          data := List.replicate 256 0, data_length := 0 },
            rx_buffer := rx_buffer, transmits := 0, ticks := 0, reads := 0 } ∧
    ESP8266_Send hal rx_buffer none
      = { response := { status := ESP8266_ERROR_INVALID_PARAM,
                        data := List.replicate 256 0, data_length := 0 },
          rx_buffer := rx_buffer, transmits := 0, ticks := 0, reads := 0 } :=
  ⟨rfl, rfl⟩

/-- C17. For every non-null command, if `HAL_UART_Transmit` fails,
`ESP8266_SendAndWaitResponse` returns `ESP8266_ERROR_UART` with `data_length = 0` and makes no
read (and no call of `HAL_GetTick`), whatever the deadline and the bytes on offer. -/
theorem C17_write_failure_short_circuits (hal : Hal) (rx_buffer cmd : List Nat)
    (timeout fuel : Nat) (htx : hal.transmitOk = false) :
    ESP8266_SendAndWaitResponse hal rx_buffer (some cmd) timeout fuel
      = Except.ok
          { response := { status := ESP8266_ERROR_UART,
                          data := List.replicate 256 0, data_length := 0 },
            rx_buffer := List.replicate 512 0, transmits := 1, ticks := 0, reads := 0 } := by
  simp only [ESP8266_SendAndWaitResponse, htx, Bool.false_eq_true, if_false, response0,
    ESP8266_ClearBuffer, ESP8266_RX_BUFFER_SIZE]

/-- Witness of C17: a transport that refuses the write while bytes are on offer. -/
theorem C17_write_failure_short_circuits_witness :
    ESP8266_SendAndWaitResponse halBroken (bytes "stale") (some (bytes "AT\r\n")) 1000 0
      = Except.ok
          { response := { status := ESP8266_ERROR_UART,
                          data := List.replicate 256 0, data_length := 0 },
            rx_buffer := List.replicate 512 0, transmits := 1, ticks := 0, reads := 0 } :=
  C17_write_failure_short_circuits halBroken (bytes "stale") (bytes "AT\r\n") 1000 0 rfl

/-- C18 (evaluation at the failing inputs). Two buffers that differ only in the digits of
the declared length (5 and 999) of a record received behind the reply to a subscribe command:
the messages returned differ (`5,23.45` and `999,23.45`) and `message_length` is 0 for both,
because the fields are read from `raw_message + 13`. The same two records at the start of the
buffer give the same message `23.45` and the lengths 5 and 999. -/
theorem C18_declared_length_behind_reply :
    IsRecord (bytes
        "AT+MQTTSUB=0,\"home/temp\",1\r\nOK\r\n+MQTTSUBRECV:0,\"home/temp\",5,23.45\r\n")
      (bytes "AT+MQTTSUB=0,\"home/temp\",1\r\nOK\r\n") (bytes "0") (bytes "\"home/temp\"")
      (bytes "5") (bytes "23.45\r\n") ∧
    IsRecord (bytes
        "AT+MQTTSUB=0,\"home/temp\",1\r\nOK\r\n+MQTTSUBRECV:0,\"home/temp\",999,23.45\r\n")
      (bytes "AT+MQTTSUB=0,\"home/temp\",1\r\nOK\r\n") (bytes "0") (bytes "\"home/temp\"")
      (bytes "999") (bytes "23.45\r\n") ∧
    cstr (MQTT_ParseReceivedMessage (bytes
      "AT+MQTTSUB=0,\"home/temp\",1\r\nOK\r\n+MQTTSUBRECV:0,\"home/temp\",5,23.45\r\n")).message
      = bytes "5,23.45" ∧
    cstr (MQTT_ParseReceivedMessage (bytes
      "AT+MQTTSUB=0,\"home/temp\",1\r\nOK\r\n+MQTTSUBRECV:0,\"home/temp\",999,23.45\r\n")).message
      = bytes "999,23.45" ∧
    (MQTT_ParseReceivedMessage (bytes
      "AT+MQTTSUB=0,\"home/temp\",1\r\nOK\r\n+MQTTSUBRECV:0,\"home/temp\",5,23.45\r\n")).message_length
      = 0 ∧
    (MQTT_ParseReceivedMessage (bytes
      "AT+MQTTSUB=0,\"home/temp\",1\r\nOK\r\n+MQTTSUBRECV:0,\"home/temp\",999,23.45\r\n")).message_length
      = 0 ∧
    cstr (MQTT_ParseReceivedMessage
      (bytes "+MQTTSUBRECV:0,\"home/temp\",5,23.45\r\n")).message = bytes "23.45" ∧
    cstr (MQTT_ParseReceivedMessage
      (bytes "+MQTTSUBRECV:0,\"home/temp\",999,23.45\r\n")).message = bytes "23.45" ∧
    (MQTT_ParseReceivedMessage
      (bytes "+MQTTSUBRECV:0,\"home/temp\",5,23.45\r\n")).message_length = 5 ∧
    (MQTT_ParseReceivedMessage
      (bytes "+MQTTSUBRECV:0,\"home/temp\",999,23.45\r\n")).message_length = 999 := by
  decide

/-- C19. Assuming that, during the exchange, the 32-bit tick is monotone and every read that
delivers no byte advances it by at least 1: for every `timeout_ms` and every reply stream the
call returns (given fuel for `timeout_ms + 513` evaluations of the loop condition), after at
most 512 reads that delivered a byte and at most `timeout_ms` reads that delivered none. -/
theorem C19_bounded_reads (hal : Hal) (rx0 cmd : List Nat) (timeout fuel : Nat)
    (htx : hal.transmitOk = true)
    (hrange : ∀ k ≤ timeout + 513, hal.tick k < 4294967296)
    (hmono : ∀ k < timeout + 513, hal.tick k ≤ hal.tick (k + 1))
    (hadv : ∀ j, j + 2 ≤ timeout + 513 → hal.receive j = none →
      hal.tick (j + 1) + 1 ≤ hal.tick (j + 2))
    (hfuel : timeout + 513 ≤ fuel) :
    ∃ r, ESP8266_SendAndWaitResponse hal rx0 (some cmd) timeout fuel = Except.ok r ∧
      (delivered hal r.reads).length ≤ 512 ∧ idleReads hal r.reads ≤ timeout ∧
      r.reads = (delivered hal r.reads).length + idleReads hal r.reads := by
  obtain ⟨why, st, h⟩ := loopIter_terminates hal timeout rx0 hrange hmono hadv
  have hb := loopIter_exit_bounds hal timeout _ rx0 hrange hmono hadv _ (Nat.le_refl _) why st h
  have hf := loopIter_exit_stable hal _ timeout _ h fuel hfuel
  have hinv := loopIter_inv hal (hal.tick 0) timeout rx0 fuel
  rw [hf] at hinv
  cases why with
  | outOfBounds => exact absurd rfl hinv.1
  | deadline =>
    exact ⟨_, sendAndWait_of_exit hal rx0 cmd timeout fuel _ st htx hf (Or.inl rfl), hb.1, hb.2,
      (delivered_add_idle hal st.reads).symm⟩
  | terminator =>
    exact ⟨_, sendAndWait_of_exit hal rx0 cmd timeout fuel _ st htx hf (Or.inr rfl), hb.1, hb.2,
      (delivered_add_idle hal st.reads).symm⟩
  | overflow =>
    exact ⟨_, sendAndWait_overflow hal rx0 cmd timeout fuel st htx hf, hb.1, hb.2,
      (delivered_add_idle hal st.reads).symm⟩

/-- Witness of C19: a tick advancing by 1 ms per call, a short reply without terminator and a
deadline of 50 ms. -/
theorem C19_bounded_reads_witness :
    ∃ r, ESP8266_SendAndWaitResponse (halTicking (bytes "\r\nbusy p...\r\n"))
        (List.replicate 512 0) (some (bytes "AT\r\n")) 50 563 = Except.ok r ∧
      (delivered (halTicking (bytes "\r\nbusy p...\r\n")) r.reads).length ≤ 512 ∧
      idleReads (halTicking (bytes "\r\nbusy p...\r\n")) r.reads ≤ 50 ∧
      r.reads = (delivered (halTicking (bytes "\r\nbusy p...\r\n")) r.reads).length
        + idleReads (halTicking (bytes "\r\nbusy p...\r\n")) r.reads :=
  C19_bounded_reads (halTicking (bytes "\r\nbusy p...\r\n")) (List.replicate 512 0)
    (bytes "AT\r\n") 50 563 rfl
    (fun k hk => show k < 4294967296 by omega)
    (fun k _ => show k ≤ k + 1 by omega)
    (fun j _ _ => show j + 1 + 1 ≤ j + 2 by omega)
    (by decide)

set_option maxRecDepth 100000 in
/-- C20 (evaluation at the failing inputs). When the transport refuses the write, or the
modem answers `ERROR`, `ESP8266_SetAutoConnect` returns status `ESP8266_OK` together with its
failure message, while the exchange itself and the sibling wrappers
`ESP8266_DisconnectWiFi` and `MQTT_CleanSession` report the error status. -/
theorem C20_autoconnect_status_not_set :
    (ESP8266_SendAndWaitResponse halBroken (List.replicate 512 0)
        (some (bytes "AT+CWAUTOCONN=1\r\n")) 2000 10).toOption.map (fun r => r.response.status)
      = some ESP8266_ERROR_UART ∧
    (ESP8266_SetAutoConnect halBroken (List.replicate 512 0) 10).toOption.map
        (fun r => (r.status, cstr r.message))
      = some (ESP8266_OK, bytes "WiFi - Failed to enable auto-connect mode\r\n") ∧
    (ESP8266_DisconnectWiFi halBroken (List.replicate 512 0) 10).toOption.map
        (fun r => (r.status, cstr r.message))
      = some (ESP8266_ERROR_UART, bytes "WiFi - Failed to disconnect\r\n") ∧
    (MQTT_CleanSession halBroken (List.replicate 512 0) 10).toOption.map
        (fun r => (r.status, cstr r.message))
      = some (ESP8266_ERROR_UART, bytes "MQTT - session clean failed\r\n") ∧
    (ESP8266_SetAutoConnect (halOfStream (bytes "\r\nERROR\r\n")) (List.replicate 512 0)
        20).toOption.map (fun r => (r.status, cstr r.message))
      = some (ESP8266_OK, bytes "WiFi - Failed to enable auto-connect mode\r\n") ∧
    (ESP8266_DisconnectWiFi (halOfStream (bytes "\r\nERROR\r\n")) (List.replicate 512 0)
        20).toOption.map (fun r => (r.status, cstr r.message))
      = some (ESP8266_ERROR_COMMAND, bytes "WiFi - Failed to disconnect\r\n") := by
  decide

/-- C21. With 32-bit ticks, for every start tick `s` the loop is left through its condition
exactly when `(t - s) mod 2^32 < timeout_ms` fails, `t` being the tick read; hence, when `E`
ticks (fewer than 2^32) have elapsed since the start tick `S mod 2^32`, wrapped or not, the
loop stops exactly when `timeout_ms ≤ E`. -/
theorem C21_deadline_wraparound (hal : Hal) (st : LoopState) (timeout S E : Nat)
    (hE : E < 4294967296) (hnow : hal.tick st.ticks = (S + E) % 4294967296) :
    (∀ s, (∃ st', loopStep hal s timeout st = LoopStep.exit LoopExit.deadline st') ↔
      ¬ (((hal.tick st.ticks : Int) - (s : Int)) % 4294967296 < (timeout : Int))) ∧
    ((∃ st', loopStep hal (S % 4294967296) timeout st
        = LoopStep.exit LoopExit.deadline st') ↔ timeout ≤ E) := by
  constructor
  · intro s
    rw [loopStep_deadline_iff, ← u32sub_eq_emod]
    omega
  · rw [loopStep_deadline_iff, hnow, u32sub_elapsed S E hE]
    omega

set_option maxRecDepth 100000 in
/-- Witness of C21: an exchange that starts 10 ticks before the wraparound with a deadline of
50 ms continues at 40 elapsed ticks and stops at 50; the whole exchange makes four reads. -/
theorem C21_deadline_wraparound_witness :
    (¬ ∃ st', loopStep halWrap 4294967286 50 (frameState [] 3)
        = LoopStep.exit LoopExit.deadline st') ∧
    (∃ st', loopStep halWrap 4294967286 50 (frameState [] 4)
        = LoopStep.exit LoopExit.deadline st') ∧
    (ESP8266_SendAndWaitResponse halWrap (List.replicate 512 0) (some (bytes "AT\r\n")) 50
        5).toOption
      = some
          { response := { status := ESP8266_ERROR_TIMEOUT, data := List.replicate 256 0,
                          data_length := 0 },
            rx_buffer := List.replicate 512 0, transmits := 1, ticks := 6, reads := 4 } :=
  ⟨fun h => absurd ((C21_deadline_wraparound halWrap (frameState [] 3) 50 4294967286 40
      (by decide) (by decide)).2.mp h) (by decide),
   (C21_deadline_wraparound halWrap (frameState [] 4) 50 4294967286 50
      (by decide) (by decide)).2.mpr (by decide),
   by decide⟩

end Esp01
